import Mathlib

/-!
# Marker overlay of `renderTranscript` (LeanDeep annotator prototype)

A shallow embedding of the transcript overlay in
`src/masterplan/q8RPdK_/components.js` (function `renderTranscript`, the
per-message body at lines 42-55) together with the mock data of
`src/masterplan/q8RPdK_/data_mock.js` and the store of
`src/masterplan/q8RPdK_/store.js`.

ECMAScript strings are sequences of UTF-16 code units, and every offset that the
program uses (`substring`, `replace`, `length`) counts code units.  A string is
therefore modelled as a list of code units, each a natural number.  The three
built-in string operations that the overlay calls are modelled after
ECMA-262:

* `String.prototype.substring` (`substring`),
* `String.prototype.replace` with a string pattern and a string replacement
  (`replace`, through `stringIndexOf` and `getSubstitution`),
* `Array.prototype.sort` with a comparator (`sort`), which the language
  requires to be stable.

`String.prototype.toLowerCase` is a parameter of the model.
-/

namespace LeanDeep

/-- An ECMAScript string: a sequence of UTF-16 code units. -/
abbrev JSString := List Nat

/-- UTF-16 encoding of one Unicode scalar value. -/
def utf16Char (c : Char) : List Nat :=
  if c.toNat < 65536 then [c.toNat]
  else [55296 + (c.toNat - 65536) / 1024, 56320 + (c.toNat - 65536) % 1024]

/-- The ECMAScript string denoted by a string literal. -/
def utf16 (s : String) : JSString :=
  s.data.flatMap utf16Char

/-- Lower-casing restricted to the ASCII letters `A`-`Z`; on strings of ASCII
letters it agrees with `String.prototype.toLowerCase`.  It instantiates the
`toLowerCase` parameter at concrete inputs. -/
def toLowerCaseASCII (s : JSString) : JSString :=
  s.map (fun c => if 65 ≤ c ∧ c ≤ 90 then c + 32 else c)

/-! ## ECMAScript built-ins used by the overlay -/

/-- `String.prototype.substring(start, end)` for integer arguments: both
arguments are clamped into `[0, length]` and swapped when `start > end`. -/
def substring (s : JSString) (start end_ : Int) : JSString :=
  let len : Int := s.length
  let finalStart := min (max start 0) len
  let finalEnd := min (max end_ 0) len
  let from_ := (min finalStart finalEnd).toNat
  let to_ := (max finalStart finalEnd).toNat
  (s.drop from_).take (to_ - from_)

/-- `StringIndexOf(string, searchValue, 0)`: the least index at which
`searchValue` occurs in `string`, or `none` when it does not occur.  The empty
search string occurs at index `0`. -/
def stringIndexOf (searchValue : JSString) : JSString → Option Nat
  | [] => if searchValue = [] then some 0 else none
  | c :: tl =>
    if searchValue.isPrefixOf (c :: tl) then some 0
    else (stringIndexOf searchValue tl).map Nat.succ

/-- `GetSubstitution(matched, str, position, « », undefined, template)` for a
string pattern, which has no captures: `$$` stands for `$`, `$&` for the
matched text, the dollar-backtick pair for the text before the match and the
dollar-apostrophe pair for the text after it; every other code unit, a `$`
before digits or `<` included, is copied. -/
def getSubstitution (matched str : JSString) (position : Nat) : JSString → JSString
  | [] => []
  | c :: tl =>
    let copied := c :: getSubstitution matched str position tl
    if c = 36 then
      match tl with
      | [] => copied
      | d :: rest =>
        if d = 36 then 36 :: getSubstitution matched str position rest
        else if d = 96 then str.take position ++ getSubstitution matched str position rest
        else if d = 38 then matched ++ getSubstitution matched str position rest
        else if d = 39 then
          str.drop (min (position + matched.length) str.length)
            ++ getSubstitution matched str position rest
        else copied
    else copied

/-- `String.prototype.replace(searchValue, replaceValue)` with both arguments
strings: only the first occurrence of `searchValue` is replaced, by the
expansion of `replaceValue`. -/
def replace (s searchValue replaceValue : JSString) : JSString :=
  match stringIndexOf searchValue s with
  | none => s
  | some pos =>
    s.take pos ++ getSubstitution searchValue s pos replaceValue
      ++ s.drop (pos + searchValue.length)

/-- Insertion of `x` into a list ordered by the comparator `cmp`, before the
first element that does not have to precede it. -/
def insertSorted {α : Type} (cmp : α → α → Int) (x : α) : List α → List α
  | [] => [x]
  | y :: ys => if cmp x y ≤ 0 then x :: y :: ys else y :: insertSorted cmp x ys

/-- `Array.prototype.sort(cmp)` on a copy of the list.  The language fixes the
result for a consistent comparator: ordered by `cmp`, elements that compare
equal in their original order (the sort is stable). -/
def sort {α : Type} (cmp : α → α → Int) : List α → List α
  | [] => []
  | x :: xs => insertSorted cmp x (sort cmp xs)

/-! ## Data model (`data_mock.js`) -/

/-- An entry of `MOCK_TRANSCRIPT`. -/
structure Message where
  id : JSString
  speaker : JSString
  text : JSString
deriving DecidableEq, Repr

/-- An entry of `MOCK_MARKERS`.  The fields `description`, `analysis`,
`confidence` and `intervention` are read only by the details panel and are
left out. -/
structure Marker where
  id : JSString
  msgId : JSString
  type : JSString
  start : Int
  end_ : Int
  label : JSString
deriving DecidableEq, Repr

def MOCK_TRANSCRIPT : List Message :=
  [ { id := utf16 "m1", speaker := utf16 "Client",
      text := utf16 "Ich fühle mich in letzter Zeit oft missverstanden, besonders wenn ich versuche, meine Grenzen klar zu kommunizieren." },
    { id := utf16 "m2", speaker := utf16 "Analyst",
      text := utf16 "Können Sie ein konkretes Beispiel nennen, in dem dieser Kommunikationsabbruch stattgefunden hat?" } ]

def MOCK_MARKERS : List Marker :=
  [ { id := utf16 "ann_001", msgId := utf16 "m1", type := utf16 "ATO",
      start := 45, end_ := 58, label := utf16 "Grenzen klar" },
    { id := utf16 "ann_002", msgId := utf16 "m1", type := utf16 "MEMA",
      start := 14, end_ := 28, label := utf16 "missverstanden" } ]

/-! ## The overlay (`components.js`, `renderTranscript`) -/

/-- The offset invariant of a span: `0 <= start < end <= length(text)`. -/
def ValidSpan (text : JSString) (m : Marker) : Prop :=
  0 ≤ m.start ∧ m.start < m.end_ ∧ m.end_ ≤ (text.length : Int)

instance (text : JSString) (m : Marker) : Decidable (ValidSpan text m) := by
  unfold ValidSpan; infer_instance

/-- The comparator of line 48: `(b.end - b.start) - (a.end - a.start)`, in exact
integer arithmetic.  The program subtracts doubles, which gives the same values as
long as the offsets and the three differences are integers of magnitude at most
`2^53`; that is so for valid spans of a string, whose length is below `2^53`,
and under `SafeOffsets`.  On larger offsets the program rounds and this
definition does not follow it. -/
def compareMarkers (a b : Marker) : Int :=
  (b.end_ - b.start) - (a.end_ - a.start)

/-- Offsets of magnitude at most `2^51`: the three subtractions of line 48 then
stay among the integers of magnitude at most `2^53`, which doubles hold
exactly. -/
def SafeOffsets (m : Marker) : Prop :=
  -(2 ^ 51) ≤ m.start ∧ m.start ≤ 2 ^ 51 ∧ -(2 ^ 51) ≤ m.end_ ∧ m.end_ ≤ 2 ^ 51

instance (m : Marker) : Decidable (SafeOffsets m) := by
  unfold SafeOffsets; infer_instance

/-- Line 48: `sortedMarkers = [...msgMarkers].sort(...)`. -/
def sortedMarkers (msgMarkers : List Marker) : List Marker :=
  sort compareMarkers msgMarkers

/-- Line 51: `snippet = msg.text.substring(m.start, m.end)`. -/
def snippet (text : JSString) (m : Marker) : JSString :=
  substring text m.start m.end_

/-- Line 53: the value of `cls`. -/
def cls (toLowerCase : JSString → JSString) (selectedMarkerId : Option JSString)
    (m : Marker) : JSString :=
  utf16 "marker marker-" ++ toLowerCase m.type ++ utf16 " "
    ++ (if selectedMarkerId = some m.id then utf16 "marker-active" else utf16 "")

/-- The opening tag written by the template of line 54. -/
def openTag (toLowerCase : JSString → JSString) (selectedMarkerId : Option JSString)
    (m : Marker) : JSString :=
  utf16 "<span class=\"" ++ cls toLowerCase selectedMarkerId m
    ++ utf16 "\" tabindex=\"0\" data-marker-id=\"" ++ m.id ++ utf16 "\">"

/-- The closing tag written by the template of line 54. -/
def closeTag : JSString := utf16 "</span>"

/-- The span element of a marker around a given content. -/
def spanElement (toLowerCase : JSString → JSString) (selectedMarkerId : Option JSString)
    (m : Marker) (content : JSString) : JSString :=
  openTag toLowerCase selectedMarkerId m ++ content ++ closeTag

/-- Lines 51-54: one iteration of `sortedMarkers.forEach`, from the current
`htmlContent` to the next one. -/
def markerStep (toLowerCase : JSString → JSString) (selectedMarkerId : Option JSString)
    (text : JSString) (htmlContent : JSString) (m : Marker) : JSString :=
  replace htmlContent (snippet text m)
    (spanElement toLowerCase selectedMarkerId m (snippet text m))

/-- Lines 46-55: `htmlContent` after the loop over the sorted markers of one
message. -/
def overlay (toLowerCase : JSString → JSString) (selectedMarkerId : Option JSString)
    (text : JSString) (msgMarkers : List Marker) : JSString :=
  (sortedMarkers msgMarkers).foldl (markerStep toLowerCase selectedMarkerId text) text

/-- Line 42: the markers of a message whose layer is active.  `activeLayers`
gives the truthiness of `activeLayers[key]`. -/
def msgMarkers (activeLayers : JSString → Bool) (markers : List Marker) (msg : Message) :
    List Marker :=
  markers.filter (fun m => decide (m.msgId = msg.id) && activeLayers m.type)

/-- Lines 42-55: the `htmlContent` that `renderTranscript` computes for one
message. -/
def htmlContent (toLowerCase : JSString → JSString) (activeLayers : JSString → Bool)
    (selectedMarkerId : Option JSString) (markers : List Marker) (msg : Message) : JSString :=
  overlay toLowerCase selectedMarkerId msg.text (msgMarkers activeLayers markers msg)

/-- Lines 41-69 of `renderTranscript`, restricted to the `htmlContent` of each
message of the transcript, in order. -/
def renderTranscript (toLowerCase : JSString → JSString) (activeLayers : JSString → Bool)
    (selectedMarkerId : Option JSString) : List JSString :=
  MOCK_TRANSCRIPT.map (htmlContent toLowerCase activeLayers selectedMarkerId MOCK_MARKERS)

/-! ## Properties named by the specification -/

/-- No `$` code unit in the message text, in a marker id or in a lower-cased
marker type: the replacement template of line 54 then holds no substitution
pattern. -/
def DollarFree (toLowerCase : JSString → JSString) (text : JSString) (ms : List Marker) :
    Prop :=
  36 ∉ text ∧ ∀ m ∈ ms, 36 ∉ m.id ∧ 36 ∉ toLowerCase m.type

instance (toLowerCase : JSString → JSString) (text : JSString) (ms : List Marker) :
    Decidable (DollarFree toLowerCase text ms) := by
  unfold DollarFree; infer_instance

/-- The length `end - start` of a span. -/
def spanLength (m : Marker) : Int := m.end_ - m.start

/-- The iteration order of the specification: `(end - start)` descending, and
`id` ascending (code-unit order) among spans of equal length. -/
def OrderedByLengthThenId (l : List Marker) : Prop :=
  l.Pairwise (fun a b =>
    spanLength b < spanLength a ∨ (spanLength a = spanLength b ∧ a.id ≤ b.id))

instance (l : List Marker) : Decidable (OrderedByLengthThenId l) := by
  unfold OrderedByLengthThenId; infer_instance

/-- The relation `StripsTo html text`: deleting inserted marker tags from
`html`, one at a time, yields `text`.  A marker tag is an opening tag of one of
the markers `ms` or the closing tag. -/
inductive StripsTo (toLowerCase : JSString → JSString) (selectedMarkerId : Option JSString)
    (ms : List Marker) : JSString → JSString → Prop
  | done (text : JSString) : StripsTo toLowerCase selectedMarkerId ms text text
  | deleteOpen (p q text : JSString) (m : Marker) (hm : m ∈ ms)
      (h : StripsTo toLowerCase selectedMarkerId ms (p ++ q) text) :
      StripsTo toLowerCase selectedMarkerId ms
        (p ++ openTag toLowerCase selectedMarkerId m ++ q) text
  | deleteClose (p q text : JSString)
      (h : StripsTo toLowerCase selectedMarkerId ms (p ++ q) text) :
      StripsTo toLowerCase selectedMarkerId ms (p ++ closeTag ++ q) text

/-- Reading of "`piece` is shown under marker `m`": an occurrence of `piece`
lies inside an element of `m`, after its opening tag and before a closing
tag. -/
def ShownUnder (toLowerCase : JSString → JSString) (selectedMarkerId : Option JSString)
    (html : JSString) (m : Marker) (piece : JSString) : Prop :=
  ∃ p c₁ c₂ q, html = p ++ openTag toLowerCase selectedMarkerId m ++ c₁ ++ piece ++ c₂
    ++ closeTag ++ q

/-- The span `{start, end, category}` of the specification's examples as a
marker of message `m1`, with the category as id and as type. -/
def exampleSpan (category : String) (start end_ : Int) : Marker :=
  { id := utf16 category, msgId := utf16 "m1", type := utf16 category,
    start := start, end_ := end_, label := utf16 "" }

/-- Every occurrence of the search string `pat` in `s` starts at offset `k`. -/
def OccursOnlyAt (pat s : JSString) (k : Nat) : Prop :=
  ∀ j, j ≤ s.length → pat.isPrefixOf (s.drop j) = true → j = k

instance (pat s : JSString) (k : Nat) : Decidable (OccursOnlyAt pat s k) := by
  unfold OccursOnlyAt; infer_instance

/-! ## The store (`store.js`) -/

/-- The keys of `LAYERS` (`data_mock.js`), which are also the keys of the initial
`activeLayers`. -/
def layerKeys : List JSString :=
  [utf16 "ATO", utf16 "SEM", utf16 "CLU", utf16 "MEMA"]

/-- The data fields of the store state (`store.js`, lines 5-12).  `activeLayers` is an
object whose own properties hold booleans; it is modelled by the lookup of its own
properties.  `selectedMarkerId` is `null` or a string. -/
structure StoreState where
  activeLayers : JSString → Option Bool
  selectedMarkerId : Option JSString
  isStructureModalOpen : Bool

/-- The property names that every object inherits from `Object.prototype`
(ECMA-262, properties of the Object prototype object); each of them holds a
function or an object. -/
def objectPrototypeKeys : List JSString :=
  [utf16 "constructor", utf16 "hasOwnProperty", utf16 "isPrototypeOf",
   utf16 "propertyIsEnumerable", utf16 "toLocaleString", utf16 "toString", utf16 "valueOf",
   utf16 "__proto__", utf16 "__defineGetter__", utf16 "__defineSetter__",
   utf16 "__lookupGetter__", utf16 "__lookupSetter__"]

/-- Truthiness of `activeLayers[key]`: the boolean of an own property, `true` for a
property inherited from `Object.prototype`, `false` for `undefined`. -/
def getTruthy (activeLayers : JSString → Option Bool) (key : JSString) : Bool :=
  match activeLayers key with
  | some b => b
  | none => decide (key ∈ objectPrototypeKeys)

/-- Lines 5-12 of `store.js`: the initial state. -/
def initialState : StoreState :=
  { activeLayers := fun key => if key ∈ layerKeys then some true else none
    selectedMarkerId := none
    isStructureModalOpen := false }

/-- Lines 14-19 of `store.js`: `toggleLayer(layerType)`.  The `set` of the store
merges the object it is given into the state, so the other fields stay; the
spread copies the own properties of `state.activeLayers` and the computed key
then defines `layerType`. -/
def toggleLayer (layerType : JSString) (state : StoreState) : StoreState :=
  { state with
    activeLayers := fun key =>
      if key = layerType then some (!getTruthy state.activeLayers layerType)
      else state.activeLayers key }

/-- Line 21 of `store.js`: `selectMarker(id)`, with `id` `null` or a string. -/
def selectMarker (id : Option JSString) (state : StoreState) : StoreState :=
  { state with selectedMarkerId := id }

/-- Lines 23-25 of `store.js`: `toggleStructureModal(val)`; `some b` is a boolean
argument, `none` an argument of any other type. -/
def toggleStructureModal (val : Option Bool) (state : StoreState) : StoreState :=
  { state with
    isStructureModalOpen :=
      match val with
      | some b => b
      | none => !state.isStructureModalOpen }

/-- The states that the store takes: the initial state and what the three
actions make of a state. -/
inductive Reachable : StoreState → Prop
  | initial : Reachable initialState
  | afterToggleLayer (layerType : JSString) (state : StoreState) (h : Reachable state) :
      Reachable (toggleLayer layerType state)
  | afterSelectMarker (id : Option JSString) (state : StoreState) (h : Reachable state) :
      Reachable (selectMarker id state)
  | afterToggleStructureModal (val : Option Bool) (state : StoreState)
      (h : Reachable state) : Reachable (toggleStructureModal val state)

/-! ## `renderTranscript` with its mutable surroundings -/

/-- What `renderTranscript` can reach: the store state, the transcript and the
array objects, a reference being an index into `arrays`; `markersRef` is the
reference held by `MOCK_MARKERS`. -/
structure World where
  store : StoreState
  transcript : List Message
  arrays : List (List Marker)
  markersRef : Nat

/-- The array behind a reference. -/
def World.read (w : World) (ref : Nat) : List Marker :=
  (w.arrays[ref]?).getD []

/-- A new array object; the result holds its reference. -/
def World.alloc (w : World) (a : List Marker) : World × Nat :=
  ({ w with arrays := w.arrays ++ [a] }, w.arrays.length)

/-- Assignment of new contents to an array object. -/
def World.write (w : World) (ref : Nat) (a : List Marker) : World :=
  { w with arrays := w.arrays.set ref a }

/-- Lines 42-55 for one message, on the world: `filter` (line 42) returns a
new array, the spread of line 48 copies it into another new array, `sort`
reorders that copy in place, and the loop of lines 50-55 builds `htmlContent`.
`activeLayers` and `selectedMarkerId` are the values read at line 37. -/
def htmlContentRun (toLowerCase : JSString → JSString)
    (activeLayers : JSString → Option Bool) (selectedMarkerId : Option JSString)
    (w : World) (msg : Message) : World × JSString :=
  let filtered := w.alloc ((w.read w.markersRef).filter
    (fun m => decide (m.msgId = msg.id) && getTruthy activeLayers m.type))
  let copied := filtered.1.alloc (filtered.1.read filtered.2)
  let sorted := copied.1.write copied.2 (sort compareMarkers (copied.1.read copied.2))
  (sorted, (sorted.read copied.2).foldl
    (markerStep toLowerCase selectedMarkerId msg.text) msg.text)

/-- Lines 37-69 of `renderTranscript` on the world: the store is read once, then
the messages are processed in order; the result lists their `htmlContent`. -/
def renderTranscriptRun (toLowerCase : JSString → JSString) (w : World) :
    World × List JSString :=
  w.transcript.foldl
    (fun acc msg =>
      let r := htmlContentRun toLowerCase w.store.activeLayers w.store.selectedMarkerId
        acc.1 msg
      (r.1, acc.2 ++ [r.2]))
    (w, [])

/-! ## Lemmas on the built-ins -/

/-- A template without `$` is its own expansion. -/
theorem getSubstitution_of_not_mem (matched str : JSString) (position : Nat) :
    ∀ t : JSString, 36 ∉ t → getSubstitution matched str position t = t
  | [], _ => rfl
  | c :: tl, h => by
    have hc : c ≠ 36 := fun e => h (by simp [e])
    have htl : 36 ∉ tl := fun e => h (List.mem_cons_of_mem _ e)
    unfold getSubstitution
    simp [hc, getSubstitution_of_not_mem matched str position tl htl]

/-- On offsets `i ≤ j ≤ length`, `substring` is the slice from `i` to `j`. -/
theorem substring_natCast (s : JSString) (i j : Nat) (hij : i ≤ j) (hj : j ≤ s.length) :
    substring s i j = (s.drop i).take (j - i) := by
  unfold substring
  have h1 : min (max (i : Int) 0) (s.length : Int) = i := by omega
  have h2 : min (max (j : Int) 0) (s.length : Int) = j := by omega
  simp only [h1, h2]
  have h3 : (min (i : Int) j).toNat = i := by omega
  have h4 : (max (i : Int) j).toNat = j := by omega
  rw [h3, h4]

/-- Any `substring` of `s` occurs in `s`. -/
theorem substring_occurs (s : JSString) (i j : Int) :
    ∃ p q, s = p ++ substring s i j ++ q := by
  have key : ∀ a n : Nat, ∃ p q, s = p ++ (s.drop a).take n ++ q := fun a n =>
    ⟨s.take a, (s.drop a).drop n, by
      rw [List.append_assoc, List.take_append_drop, List.take_append_drop]⟩
  exact key _ _

/-- An index returned by `stringIndexOf` is the start of an occurrence. -/
theorem stringIndexOf_some (pat : JSString) :
    ∀ (s : JSString) (k : Nat), stringIndexOf pat s = some k →
      ∃ p q, s = p ++ pat ++ q ∧ p.length = k
  | [], k, h => by
    unfold stringIndexOf at h
    split at h
    · rename_i hp
      simp at h
      exact ⟨[], [], by simp [hp], by simpa using h⟩
    · simp at h
  | c :: tl, k, h => by
    unfold stringIndexOf at h
    split at h
    · rename_i hp
      simp at h
      obtain ⟨q, hq⟩ := List.isPrefixOf_iff_prefix.mp hp
      exact ⟨[], q, by simpa using hq.symm, by simpa using h⟩
    · cases hr : stringIndexOf pat tl with
      | none => simp [hr] at h
      | some k' =>
        simp [hr] at h
        obtain ⟨p, q, hs, hl⟩ := stringIndexOf_some pat tl k' hr
        exact ⟨c :: p, q, by simp [hs], by simp [hl, ← h]⟩

theorem stringIndexOf_cons (pat : JSString) (c : Nat) (tl : JSString) :
    stringIndexOf pat (c :: tl) =
      if pat.isPrefixOf (c :: tl) then some 0 else (stringIndexOf pat tl).map Nat.succ := by
  rw [stringIndexOf]

/-- A search string that occurs is found. -/
theorem stringIndexOf_of_occurs (pat : JSString) :
    ∀ (p q : JSString), ∃ k, stringIndexOf pat (p ++ pat ++ q) = some k
  | [], q => by
    cases hs : ([] ++ pat ++ q) with
    | nil =>
      have hp : pat = [] := by
        cases pat with
        | nil => rfl
        | cons a l => simp at hs
      exact ⟨0, by simp [stringIndexOf, hp]⟩
    | cons c tl =>
      refine ⟨0, ?_⟩
      have hpre : pat.isPrefixOf (c :: tl) = true := by
        rw [ List.isPrefixOf_iff_prefix, ← hs]
        exact ⟨q, by simp⟩
      simp [stringIndexOf, hpre]
  | c :: p, q => by
    obtain ⟨k, hk⟩ := stringIndexOf_of_occurs pat p q
    have hcons : (c :: p) ++ pat ++ q = c :: (p ++ pat ++ q) := rfl
    cases hpre : pat.isPrefixOf (c :: (p ++ pat ++ q)) with
    | true => exact ⟨0, by rw [hcons, stringIndexOf_cons, hpre]; rfl⟩
    | false => exact ⟨k + 1, by rw [hcons, stringIndexOf_cons, hpre, hk]; rfl⟩

/-- The result of `replace` when the first occurrence is known and the
replacement holds no `$`. -/
theorem replace_at (p pat q r : JSString) (k : Nat)
    (h : stringIndexOf pat (p ++ pat ++ q) = some k) (hk : k = p.length) (hr : 36 ∉ r) :
    replace (p ++ pat ++ q) pat r = p ++ r ++ q := by
  subst hk
  unfold replace
  rw [h]
  simp only [getSubstitution_of_not_mem _ _ _ r hr]
  rw [List.append_assoc p pat q, List.take_left, ← List.append_assoc,
    ← List.length_append, List.drop_left]

/-- The slice `[i, k)` splits at any `j` in between. -/
theorem substring_append (s : JSString) (i j k : Int) (hi : 0 ≤ i) (hij : i ≤ j)
    (hjk : j ≤ k) (hk : k ≤ (s.length : Int)) :
    substring s i j ++ substring s j k = substring s i k := by
  obtain ⟨a, rfl⟩ := Int.eq_ofNat_of_zero_le hi
  obtain ⟨b, rfl⟩ := Int.eq_ofNat_of_zero_le (le_trans hi hij)
  obtain ⟨c, rfl⟩ := Int.eq_ofNat_of_zero_le (le_trans (le_trans hi hij) hjk)
  have hab : a ≤ b := by omega
  have hbc : b ≤ c := by omega
  have hc : c ≤ s.length := by omega
  rw [substring_natCast s a b hab (by omega), substring_natCast s b c hbc hc,
    substring_natCast s a c (by omega) hc]
  have h1 : c - a = (b - a) + (c - b) := by omega
  have h2 : s.drop b = (s.drop a).drop (b - a) := by
    rw [List.drop_drop]; congr 1; omega
  rw [h1, List.take_add, h2]

/-- The slice from `0` to the length is the whole string. -/
theorem substring_full (s : JSString) : substring s 0 (s.length : Int) = s := by
  have h := substring_natCast s 0 s.length (Nat.zero_le _) (le_refl _)
  simpa using h

/-- Length of a slice with offsets in range. -/
theorem length_substring (s : JSString) (i j : Int) (hi : 0 ≤ i) (hij : i ≤ j)
    (hj : j ≤ (s.length : Int)) : (substring s i j).length = (j - i).toNat := by
  obtain ⟨a, rfl⟩ := Int.eq_ofNat_of_zero_le hi
  obtain ⟨b, rfl⟩ := Int.eq_ofNat_of_zero_le (le_trans hi hij)
  rw [substring_natCast s a b (by omega) (by omega)]
  simp only [List.length_take, List.length_drop]
  omega

/-- `substring` does not depend on the order of its arguments. -/
theorem substring_comm (s : JSString) (i j : Int) : substring s i j = substring s j i := by
  unfold substring
  simp only [min_comm (min (max i 0) (s.length : Int)), max_comm (min (max i 0) (s.length : Int))]

/-- An end offset beyond the length is read as the length. -/
theorem substring_of_length_le (s : JSString) (i j : Int) (hj : (s.length : Int) ≤ j) :
    substring s i j = substring s i (s.length : Int) := by
  unfold substring
  have h1 : min (max j 0) (s.length : Int) = min (max (s.length : Int) 0) (s.length : Int) := by
    omega
  simp only [h1]

/-- A code unit that is absent from `s` is absent from its substrings. -/
theorem not_mem_substring (s : JSString) (i j : Int) (c : Nat) (h : c ∉ s) :
    c ∉ substring s i j := by
  intro hc
  obtain ⟨p, q, hs⟩ := substring_occurs s i j
  apply h
  rw [hs]
  simp [hc]

/-! ## Lemmas on the sort -/

theorem insertSorted_perm {α : Type} (cmp : α → α → Int) (x : α) :
    ∀ l : List α, (insertSorted cmp x l).Perm (x :: l)
  | [] => List.Perm.refl _
  | y :: ys => by
    unfold insertSorted
    split
    · exact List.Perm.refl _
    · exact ((insertSorted_perm cmp x ys).cons y).trans (List.Perm.swap x y ys)

theorem sort_perm {α : Type} (cmp : α → α → Int) : ∀ l : List α, (sort cmp l).Perm l
  | [] => List.Perm.refl _
  | x :: xs => by
    unfold sort
    exact (insertSorted_perm cmp x _).trans ((sort_perm cmp xs).cons x)

theorem insertSorted_pairwise (x : Marker) :
    ∀ l : List Marker, l.Pairwise (fun a b => spanLength b ≤ spanLength a) →
      (insertSorted compareMarkers x l).Pairwise (fun a b => spanLength b ≤ spanLength a)
  | [], _ => by simp [insertSorted]
  | y :: ys, h => by
    unfold insertSorted
    obtain ⟨hy, hys⟩ := List.pairwise_cons.mp h
    split
    · rename_i hle
      have hxy : spanLength y ≤ spanLength x := by
        unfold compareMarkers at hle; unfold spanLength; omega
      refine List.pairwise_cons.mpr ⟨?_, h⟩
      intro z hz
      rcases List.mem_cons.mp hz with rfl | hz
      · exact hxy
      · exact le_trans (hy z hz) hxy
    · rename_i hle
      have hyx : spanLength x ≤ spanLength y := by
        unfold compareMarkers at hle; unfold spanLength; omega
      refine List.pairwise_cons.mpr ⟨?_, insertSorted_pairwise x ys hys⟩
      intro z hz
      rcases List.mem_cons.mp ((insertSorted_perm compareMarkers x ys).subset hz) with rfl | hz
      · exact hyx
      · exact hy z hz

theorem insertSorted_filter (k : Int) (x : Marker) :
    ∀ l : List Marker,
      (insertSorted compareMarkers x l).filter (fun m => decide (spanLength m = k))
        = (x :: l).filter (fun m => decide (spanLength m = k))
  | [] => rfl
  | y :: ys => by
    unfold insertSorted
    split
    · rfl
    · rename_i hle
      have hne : spanLength x ≠ spanLength y := by
        unfold compareMarkers at hle; unfold spanLength; omega
      have ih := insertSorted_filter k x ys
      by_cases hy : spanLength y = k
      · have hx : spanLength x ≠ k := fun e => hne (e.trans hy.symm)
        simp only [List.filter_cons, hy, hx, decide_True, decide_False, if_true] at ih ⊢
        simpa using ih
      · simp only [List.filter_cons, hy, decide_False] at ih ⊢
        simpa using ih

theorem sortedMarkers_perm (ms : List Marker) : (sortedMarkers ms).Perm ms :=
  sort_perm compareMarkers ms

/-- Two markers of different length are processed longer first, whatever
their order in the list. -/
theorem sortedMarkers_pair_of_lt (A B : Marker) (h : spanLength B < spanLength A) :
    sortedMarkers [A, B] = [A, B] ∧ sortedMarkers [B, A] = [A, B] := by
  unfold spanLength at h
  have h1 : compareMarkers A B ≤ 0 := by unfold compareMarkers; omega
  have h2 : ¬ compareMarkers B A ≤ 0 := by unfold compareMarkers; omega
  constructor
  · simp [sortedMarkers, sort, insertSorted, h1]
  · simp [sortedMarkers, sort, insertSorted, h2]

/-! ## Lemmas on one iteration of the loop -/

/-- The span element of a marker holds no `$` when its parts hold none. -/
theorem not_mem_spanElement (toLowerCase : JSString → JSString)
    (selectedMarkerId : Option JSString) (m : Marker) (content : JSString)
    (hid : 36 ∉ m.id) (hty : 36 ∉ toLowerCase m.type) (hc : 36 ∉ content) :
    36 ∉ spanElement toLowerCase selectedMarkerId m content := by
  have c1 : 36 ∉ utf16 "<span class=\"" := by decide
  have c2 : 36 ∉ utf16 "marker marker-" := by decide
  have c3 : 36 ∉ utf16 " " := by decide
  have c4 : 36 ∉ utf16 "marker-active" := by decide
  have c5 : 36 ∉ utf16 "" := by decide
  have c6 : 36 ∉ utf16 "\" tabindex=\"0\" data-marker-id=\"" := by decide
  have c7 : 36 ∉ utf16 "\">" := by decide
  have c8 : 36 ∉ utf16 "</span>" := by decide
  unfold spanElement openTag cls closeTag
  simp only [List.mem_append, not_or]
  refine ⟨⟨⟨⟨⟨⟨c1, ⟨⟨⟨c2, hty⟩, c3⟩, ?_⟩⟩, c6⟩, hid⟩, c7⟩, hc⟩, c8⟩
  split
  · exact c4
  · exact c5

/-- One iteration whose snippet is first found at a known place wraps it
there. -/
theorem markerStep_at (toLowerCase : JSString → JSString)
    (selectedMarkerId : Option JSString) (text html p q : JSString) (m : Marker) (k : Nat)
    (hhtml : html = p ++ snippet text m ++ q)
    (hidx : stringIndexOf (snippet text m) html = some k) (hk : k = p.length)
    (htext : 36 ∉ text) (hid : 36 ∉ m.id) (hty : 36 ∉ toLowerCase m.type) :
    markerStep toLowerCase selectedMarkerId text html m
      = p ++ spanElement toLowerCase selectedMarkerId m (snippet text m) ++ q := by
  subst hhtml
  exact replace_at p _ q _ k hidx hk
    (not_mem_spanElement toLowerCase selectedMarkerId m _ hid hty
      (not_mem_substring text _ _ 36 htext))

/-- One iteration whose snippet does not occur leaves the content as it is. -/
theorem markerStep_lost (toLowerCase : JSString → JSString)
    (selectedMarkerId : Option JSString) (text html : JSString) (m : Marker)
    (hidx : stringIndexOf (snippet text m) html = none) :
    markerStep toLowerCase selectedMarkerId text html m = html := by
  unfold markerStep replace
  rw [hidx]

theorem overlay_single (toLowerCase : JSString → JSString)
    (selectedMarkerId : Option JSString) (text : JSString) (m : Marker) :
    overlay toLowerCase selectedMarkerId text [m]
      = markerStep toLowerCase selectedMarkerId text text m := rfl

theorem overlay_of_sorted_pair (toLowerCase : JSString → JSString)
    (selectedMarkerId : Option JSString) (text : JSString) (ms : List Marker) (P Q : Marker)
    (h : sortedMarkers ms = [P, Q]) :
    overlay toLowerCase selectedMarkerId text ms
      = markerStep toLowerCase selectedMarkerId text
          (markerStep toLowerCase selectedMarkerId text text P) Q := by
  unfold overlay
  rw [h]
  rfl

/-- A text splits at the offsets of a valid span. -/
theorem text_split (text : JSString) (m : Marker) (h : ValidSpan text m) :
    text = substring text 0 m.start ++ snippet text m
      ++ substring text m.end_ (text.length : Int) := by
  obtain ⟨h0, h1, h2⟩ := h
  unfold snippet
  rw [substring_append text 0 m.start m.end_ (le_refl _) h0 (le_of_lt h1) h2,
    substring_append text 0 m.end_ _ (le_refl _) (by omega) h2 (le_refl _), substring_full]

/-- The result of `replace` when the search string is found. -/
theorem replace_found (s pat r : JSString) (k : Nat) (h : stringIndexOf pat s = some k) :
    ∃ p q, s = p ++ pat ++ q ∧ p.length = k
      ∧ replace s pat r = p ++ getSubstitution pat s k r ++ q := by
  obtain ⟨p, q, hs, hk⟩ := stringIndexOf_some pat s k h
  refine ⟨p, q, hs, hk, ?_⟩
  unfold replace
  rw [h]
  simp only
  have h1 : s.take k = p := by
    rw [hs, ← hk, List.append_assoc, List.take_left]
  have h2 : s.drop (k + pat.length) = q := by
    rw [hs, ← hk, ← List.length_append, List.drop_left]
  rw [h1, h2]

/-- Without `$` in the text, the ids and the lower-cased types, one iteration
only inserts tags. -/
theorem markerStep_stripsTo (toLowerCase : JSString → JSString)
    (selectedMarkerId : Option JSString) (ms : List Marker) (text html : JSString) (m : Marker)
    (hm : m ∈ ms) (htext : 36 ∉ text) (hid : 36 ∉ m.id) (hty : 36 ∉ toLowerCase m.type)
    (h : StripsTo toLowerCase selectedMarkerId ms html text) :
    StripsTo toLowerCase selectedMarkerId ms
      (markerStep toLowerCase selectedMarkerId text html m) text := by
  cases hidx : stringIndexOf (snippet text m) html with
  | none => rw [markerStep_lost _ _ _ _ _ hidx]; exact h
  | some k =>
    obtain ⟨p, q, hhtml, hk⟩ := stringIndexOf_some _ _ _ hidx
    rw [markerStep_at toLowerCase selectedMarkerId text html p q m k hhtml hidx hk.symm
      htext hid hty]
    have h1 : StripsTo toLowerCase selectedMarkerId ms ((p ++ snippet text m) ++ q) text := by
      rw [← hhtml]; exact h
    have h2 := StripsTo.deleteClose (p ++ snippet text m) q text h1
    have h3 : StripsTo toLowerCase selectedMarkerId ms
        (p ++ (snippet text m ++ closeTag ++ q)) text := by
      simpa only [List.append_assoc] using h2
    have h4 := StripsTo.deleteOpen p (snippet text m ++ closeTag ++ q) text m hm h3
    simpa only [spanElement, List.append_assoc] using h4

theorem foldl_markerStep_stripsTo (toLowerCase : JSString → JSString)
    (selectedMarkerId : Option JSString) (ms : List Marker) (text : JSString)
    (htext : 36 ∉ text) :
    ∀ (l : List Marker) (html : JSString),
      (∀ m ∈ l, m ∈ ms ∧ 36 ∉ m.id ∧ 36 ∉ toLowerCase m.type) →
      StripsTo toLowerCase selectedMarkerId ms html text →
      StripsTo toLowerCase selectedMarkerId ms
        (l.foldl (markerStep toLowerCase selectedMarkerId text) html) text
  | [], _, _, h => h
  | m :: l, html, hl, h => by
    obtain ⟨hm, hid, hty⟩ := hl m (by simp)
    exact foldl_markerStep_stripsTo toLowerCase selectedMarkerId ms text htext l _
      (fun x hx => hl x (List.mem_cons_of_mem _ hx))
      (markerStep_stripsTo toLowerCase selectedMarkerId ms text html m hm htext hid hty h)

/-- Round trip of the overlay on inputs without `$`: the tags inserted for the
markers can be deleted again, and what remains is the message text. -/
theorem overlay_stripsTo (toLowerCase : JSString → JSString)
    (selectedMarkerId : Option JSString) (text : JSString) (ms : List Marker)
    (hd : DollarFree toLowerCase text ms) :
    StripsTo toLowerCase selectedMarkerId ms (overlay toLowerCase selectedMarkerId text ms)
      text := by
  obtain ⟨htext, hms⟩ := hd
  unfold overlay
  refine foldl_markerStep_stripsTo toLowerCase selectedMarkerId ms text htext _ _ ?_
    (StripsTo.done text)
  intro m hm
  have hmem : m ∈ ms := (sortedMarkers_perm ms).subset hm
  exact ⟨hmem, hms m hmem⟩

/-- A single marker over the whole text, on inputs without `$`: the output is
the marker's element around the text. -/
theorem overlay_full_cover (toLowerCase : JSString → JSString)
    (selectedMarkerId : Option JSString) (text : JSString) (m : Marker)
    (hstart : m.start = 0) (hend : m.end_ = (text.length : Int))
    (hd : DollarFree toLowerCase text [m]) :
    overlay toLowerCase selectedMarkerId text [m]
      = spanElement toLowerCase selectedMarkerId m text := by
  obtain ⟨htext, hms⟩ := hd
  obtain ⟨hid, hty⟩ := hms m (by simp)
  have hsnip : snippet text m = text := by
    unfold snippet
    rw [hstart, hend, substring_full]
  obtain ⟨k, hk⟩ := stringIndexOf_of_occurs text [] []
  have hk0 : k = 0 := by
    obtain ⟨p, q, hpq, hl⟩ := stringIndexOf_some _ _ _ hk
    have hlen := congrArg List.length hpq
    simp only [List.length_append, List.append_nil, List.nil_append] at hlen
    omega
  have h := markerStep_at toLowerCase selectedMarkerId text text [] [] m k
    (by rw [hsnip]; simp) (by rw [hsnip]; simpa using hk) (by simpa using hk0) htext hid hty
  rw [overlay_single, h, hsnip]
  simp

/-! ## Lemmas on the world and on the store -/

theorem World.read_alloc_new (w : World) (a : List Marker) :
    (w.alloc a).1.read (w.alloc a).2 = a := by
  simp [World.read, World.alloc]

theorem World.read_alloc_old (w : World) (a : List Marker) (r : Nat)
    (h : r < w.arrays.length) : (w.alloc a).1.read r = w.read r := by
  simp [World.read, World.alloc, List.getElem?_append_left h]

theorem World.read_write_same (w : World) (a : List Marker) (r : Nat)
    (h : r < w.arrays.length) : (w.write r a).read r = a := by
  simp [World.read, World.write, h]

theorem World.read_write_other (w : World) (a : List Marker) (r r' : Nat) (h : r ≠ r') :
    (w.write r a).read r' = w.read r' := by
  simp [World.read, World.write, List.getElem?_set_ne h]

/-- What one run of the body does: its output is the `htmlContent` of the pure
model, and the world gains two array objects and is otherwise the same. -/
theorem htmlContentRun_spec (toLowerCase : JSString → JSString)
    (activeLayers : JSString → Option Bool) (selectedMarkerId : Option JSString)
    (w : World) (msg : Message) :
    (htmlContentRun toLowerCase activeLayers selectedMarkerId w msg).2
        = htmlContent toLowerCase (getTruthy activeLayers) selectedMarkerId
            (w.read w.markersRef) msg
    ∧ (htmlContentRun toLowerCase activeLayers selectedMarkerId w msg).1.store = w.store
    ∧ (htmlContentRun toLowerCase activeLayers selectedMarkerId w msg).1.transcript
        = w.transcript
    ∧ (htmlContentRun toLowerCase activeLayers selectedMarkerId w msg).1.markersRef
        = w.markersRef
    ∧ (htmlContentRun toLowerCase activeLayers selectedMarkerId w msg).1.arrays.length
        = w.arrays.length + 2
    ∧ ∀ r, r < w.arrays.length →
        (htmlContentRun toLowerCase activeLayers selectedMarkerId w msg).1.read r
          = w.read r := by
  refine ⟨?_, rfl, rfl, rfl, ?_, ?_⟩
  · unfold htmlContentRun htmlContent overlay msgMarkers sortedMarkers
    simp only
    rw [World.read_write_same _ _ _ (by simp [World.alloc]), World.read_alloc_new,
      World.read_alloc_new]
  · simp [htmlContentRun, World.alloc, World.write]
  · intro r hr
    unfold htmlContentRun
    simp only
    rw [World.read_write_other _ _ _ _ (by simp [World.alloc]; omega),
      World.read_alloc_old _ _ _ (by simp [World.alloc]; omega), World.read_alloc_old _ _ _ hr]

/-- The whole loop: the outputs are the `htmlContent` of the pure model for each
message, in order, and the world keeps its store, its transcript and the
contents of the arrays it had. -/
theorem foldl_htmlContentRun (toLowerCase : JSString → JSString)
    (activeLayers : JSString → Option Bool) (selectedMarkerId : Option JSString) :
    ∀ (msgs : List Message) (acc : World × List JSString),
      acc.1.markersRef < acc.1.arrays.length →
      (msgs.foldl
          (fun acc msg =>
            let r := htmlContentRun toLowerCase activeLayers selectedMarkerId acc.1 msg
            (r.1, acc.2 ++ [r.2])) acc).2
        = acc.2 ++ msgs.map (htmlContent toLowerCase (getTruthy activeLayers) selectedMarkerId
            (acc.1.read acc.1.markersRef))
      ∧ (msgs.foldl
          (fun acc msg =>
            let r := htmlContentRun toLowerCase activeLayers selectedMarkerId acc.1 msg
            (r.1, acc.2 ++ [r.2])) acc).1.store = acc.1.store
      ∧ (msgs.foldl
          (fun acc msg =>
            let r := htmlContentRun toLowerCase activeLayers selectedMarkerId acc.1 msg
            (r.1, acc.2 ++ [r.2])) acc).1.transcript = acc.1.transcript
      ∧ (msgs.foldl
          (fun acc msg =>
            let r := htmlContentRun toLowerCase activeLayers selectedMarkerId acc.1 msg
            (r.1, acc.2 ++ [r.2])) acc).1.markersRef = acc.1.markersRef
      ∧ acc.1.arrays.length ≤ (msgs.foldl
          (fun acc msg =>
            let r := htmlContentRun toLowerCase activeLayers selectedMarkerId acc.1 msg
            (r.1, acc.2 ++ [r.2])) acc).1.arrays.length
      ∧ ∀ r, r < acc.1.arrays.length →
          (msgs.foldl
            (fun acc msg =>
              let r := htmlContentRun toLowerCase activeLayers selectedMarkerId acc.1 msg
              (r.1, acc.2 ++ [r.2])) acc).1.read r = acc.1.read r
  | [], acc, _ => by simp
  | msg :: msgs, acc, hacc => by
    obtain ⟨h1, h2, h3, h4, h5, h6⟩ :=
      htmlContentRun_spec toLowerCase activeLayers selectedMarkerId acc.1 msg
    have ih := foldl_htmlContentRun toLowerCase activeLayers selectedMarkerId msgs
      ((htmlContentRun toLowerCase activeLayers selectedMarkerId acc.1 msg).1,
        acc.2 ++ [(htmlContentRun toLowerCase activeLayers selectedMarkerId acc.1 msg).2])
      (by simp only [h4, h5]; omega)
    obtain ⟨i1, i2, i3, i4, i5, i6⟩ := ih
    simp only [List.foldl_cons]
    refine ⟨?_, ?_, ?_, ?_, ?_, ?_⟩
    · rw [i1]
      simp only [h4, h6 _ hacc, h1, List.map_cons, List.append_assoc, List.singleton_append]
    · rw [i2, h2]
    · rw [i3, h3]
    · rw [i4, h4]
    · simp only [h5] at i5; omega
    · intro r hr
      rw [i6 r (by simp only [h5]; omega), h6 r hr]

/-- The whole of `renderTranscript` run twice gives the same list of contents, and
the store, the transcript and the marker list are as before. -/
theorem renderTranscriptRun_idempotent_and_pure (toLowerCase : JSString → JSString)
    (w : World) (hw : w.markersRef < w.arrays.length) :
    (renderTranscriptRun toLowerCase (renderTranscriptRun toLowerCase w).1).2
      = (renderTranscriptRun toLowerCase w).2
    ∧ (renderTranscriptRun toLowerCase w).1.store = w.store
    ∧ (renderTranscriptRun toLowerCase w).1.transcript = w.transcript
    ∧ (renderTranscriptRun toLowerCase w).1.read w.markersRef = w.read w.markersRef := by
  obtain ⟨h1, h2, h3, h4, h5, h6⟩ :=
    foldl_htmlContentRun toLowerCase w.store.activeLayers w.store.selectedMarkerId
      w.transcript (w, []) hw
  have e1 : (renderTranscriptRun toLowerCase w).2
      = w.transcript.map (htmlContent toLowerCase (getTruthy w.store.activeLayers)
          w.store.selectedMarkerId (w.read w.markersRef)) := by
    simpa [renderTranscriptRun] using h1
  have e2 : (renderTranscriptRun toLowerCase w).1.store = w.store := h2
  have e3 : (renderTranscriptRun toLowerCase w).1.transcript = w.transcript := h3
  have e4 : (renderTranscriptRun toLowerCase w).1.markersRef = w.markersRef := h4
  have e5 : w.arrays.length ≤ (renderTranscriptRun toLowerCase w).1.arrays.length := h5
  have e6 : (renderTranscriptRun toLowerCase w).1.read w.markersRef = w.read w.markersRef :=
    h6 _ hw
  refine ⟨?_, e2, e3, e6⟩
  obtain ⟨g1, -⟩ :=
    foldl_htmlContentRun toLowerCase (renderTranscriptRun toLowerCase w).1.store.activeLayers
      (renderTranscriptRun toLowerCase w).1.store.selectedMarkerId
      (renderTranscriptRun toLowerCase w).1.transcript
      ((renderTranscriptRun toLowerCase w).1, []) (by simp only [e4]; omega)
  have g : (renderTranscriptRun toLowerCase (renderTranscriptRun toLowerCase w).1).2
      = (renderTranscriptRun toLowerCase w).1.transcript.map
          (htmlContent toLowerCase
            (getTruthy (renderTranscriptRun toLowerCase w).1.store.activeLayers)
            (renderTranscriptRun toLowerCase w).1.store.selectedMarkerId
            ((renderTranscriptRun toLowerCase w).1.read
              (renderTranscriptRun toLowerCase w).1.markersRef)) := by
    simpa [renderTranscriptRun] using g1
  rw [g, e1, e2, e3, e4, e6]

/-- A marker of another message or of an inactive layer can be added anywhere in
the list without any effect on `htmlContent`. -/
theorem htmlContent_ignores_marker (toLowerCase : JSString → JSString) (s : StoreState)
    (msg : Message) (before after : List Marker) (x : Marker)
    (hx : x.msgId ≠ msg.id ∨ getTruthy s.activeLayers x.type = false) :
    htmlContent toLowerCase (getTruthy s.activeLayers) s.selectedMarkerId
        (before ++ x :: after) msg
      = htmlContent toLowerCase (getTruthy s.activeLayers) s.selectedMarkerId
          (before ++ after) msg := by
  have hf : (decide (x.msgId = msg.id) && getTruthy s.activeLayers x.type) = false := by
    rcases hx with h | h
    · simp [h]
    · simp [h]
  unfold htmlContent msgMarkers
  rw [List.filter_append, List.filter_append, List.filter_cons, hf]
  rfl

/-- Every state of the store holds the four layer keys as own properties. -/
theorem Reachable.has_layer_keys {s : StoreState} (hs : Reachable s) :
    ∀ k ∈ layerKeys, ∃ b, s.activeLayers k = some b := by
  induction hs with
  | initial =>
    intro k hk
    exact ⟨true, by simp [initialState, hk]⟩
  | afterToggleLayer layerType state _ ih =>
    intro k hk
    by_cases hkl : k = layerType
    · exact ⟨!getTruthy state.activeLayers layerType, by
        simp only [toggleLayer, hkl, if_true]⟩
    · obtain ⟨b, hb⟩ := ih k hk
      exact ⟨b, by simp only [toggleLayer, hkl, if_false, hb]⟩
  | afterSelectMarker id state _ ih => exact ih
  | afterToggleStructureModal val state _ ih => exact ih

/-! ## Lemmas on a snippet cut by a tag -/

/-- A search string without the code unit `c` that occurs in `l₁ ++ c :: l₂`
occurs in `l₁` or in `l₂`. -/
theorem occurs_split_at (x l₁ l₂ : JSString) (c : Nat) (hc : c ∉ x)
    (h : x <:+: l₁ ++ c :: l₂) : x <:+: l₁ ∨ x <:+: l₂ := by
  obtain ⟨s, t, hst⟩ := h
  rcases List.append_eq_append_iff.mp hst with ⟨a', h1, _⟩ | ⟨c', h1, h2⟩
  · exact Or.inl ⟨s, a', h1.symm⟩
  · cases c' with
    | nil =>
      exact Or.inl ⟨s, [], by simpa using h1⟩
    | cons d c'' =>
      simp only [List.cons_append, List.cons.injEq] at h2
      obtain ⟨hd, h2⟩ := h2
      subst hd
      rcases List.append_eq_append_iff.mp h1 with ⟨a'', _, h4⟩ | ⟨e, h3, h4⟩
      · exact absurd (by rw [h4]; simp) hc
      · cases e with
        | nil =>
          simp only [List.nil_append] at h4
          exact absurd (by rw [← h4]; simp) hc
        | cons d' e' =>
          simp only [List.cons_append, List.cons.injEq] at h4
          exact Or.inr ⟨e', t, by rw [h2, h4.2, List.append_assoc]⟩

/-- A search string that does not occur is not found. -/
theorem stringIndexOf_eq_none (pat s : JSString) (h : ¬ pat <:+: s) :
    stringIndexOf pat s = none := by
  cases hk : stringIndexOf pat s with
  | none => rfl
  | some k =>
    obtain ⟨p, q, hs, _⟩ := stringIndexOf_some pat s k hk
    exact absurd ⟨p, q, hs.symm⟩ h

/-- The opening tag starts with `<` and ends with `>`. -/
theorem openTag_shape (toLowerCase : JSString → JSString) (selectedMarkerId : Option JSString)
    (m : Marker) : ∃ inner, openTag toLowerCase selectedMarkerId m = 60 :: inner ++ [62] := by
  refine ⟨utf16 "span class=\"" ++ cls toLowerCase selectedMarkerId m
    ++ utf16 "\" tabindex=\"0\" data-marker-id=\"" ++ m.id ++ [34], ?_⟩
  have h1 : utf16 "<span class=\"" = 60 :: utf16 "span class=\"" := by decide
  have h2 : utf16 "\">" = [34, 62] := by decide
  unfold openTag
  rw [h1, h2]
  simp

/-- The closing tag starts with `<` and ends with `>`. -/
theorem closeTag_shape : closeTag = 60 :: utf16 "/span" ++ [62] := by decide

/-- A search string without `<` and `>` that occurs in a text with one span
element in it occurs before the element, in its opening tag, in its content, in
its closing tag or after it. -/
theorem not_occurs_between_tags (x u s y op cl innerO innerC : JSString)
    (hop : op = 60 :: innerO ++ [62]) (hcl : cl = 60 :: innerC ++ [62])
    (h60 : 60 ∉ x) (h62 : 62 ∉ x)
    (hu : ¬ x <:+: u) (hs : ¬ x <:+: s) (hy : ¬ x <:+: y)
    (hop' : ¬ x <:+: op) (hcl' : ¬ x <:+: cl) :
    ¬ x <:+: u ++ (op ++ s ++ cl) ++ y := by
  intro h
  have e : u ++ (op ++ s ++ cl) ++ y
      = u ++ 60 :: (innerO ++ 62 :: (s ++ 60 :: (innerC ++ 62 :: y))) := by
    rw [hop, hcl]
    simp
  rw [e] at h
  rcases occurs_split_at x u _ 60 h60 h with h | h
  · exact hu h
  rcases occurs_split_at x innerO _ 62 h62 h with h | h
  · exact hop' (h.trans ⟨[60], [62], by rw [hop]; simp⟩)
  rcases occurs_split_at x s _ 60 h60 h with h | h
  · exact hs h
  rcases occurs_split_at x innerC y 62 h62 h with h | h
  · exact hcl' (h.trans ⟨[60], [62], by rw [hcl]; simp⟩)
  · exact hy h

/-- A search string whose only place in the text is `k` does not occur in a piece
of the text that does not hold all of the occurrence at `k`. -/
theorem not_occurs_in_piece (x text p piece q : JSString) (k : Nat)
    (htext : text = p ++ piece ++ q) (huniq : OccursOnlyAt x text k)
    (hpos : k < p.length ∨ p.length + piece.length < k + x.length) : ¬ x <:+: piece := by
  rintro ⟨a, b, hab⟩
  have hdrop : text.drop (p.length + a.length) = x ++ (b ++ q) := by
    rw [htext, ← hab]
    have : p ++ (a ++ x ++ b) ++ q = (p ++ a) ++ (x ++ (b ++ q)) := by
      simp only [List.append_assoc]
    rw [this, ← List.length_append, List.drop_left]
  have hlen : text.length = p.length + piece.length + q.length := by
    rw [htext]; simp only [List.length_append]
  have hpl : piece.length = a.length + x.length + b.length := by
    rw [← hab]; simp only [List.length_append]
  have hj := huniq (p.length + a.length) (by omega)
    (by rw [hdrop, List.isPrefixOf_iff_prefix]; exact ⟨b ++ q, rfl⟩)
  omega

/-! ## The claims -/

/-- Claim C1, evaluation at the failing input: for the text `a$$b` and the valid marker `[0,4)`,
the replacement template is expanded and `$$` becomes `$`, so the content of the inserted
element is `a$b`; the four code units of the text are not even a subsequence of
`htmlContent`, so no deletion of tags gives the text back. -/
theorem roundtrip_fails_on_dollar :
    ValidSpan (utf16 "a$$b") (exampleSpan "X" 0 4)
    ∧ overlay toLowerCaseASCII none (utf16 "a$$b") [exampleSpan "X" 0 4]
        = utf16 "<span class=\"marker marker-x \" tabindex=\"0\" data-marker-id=\"X\">a$b</span>"
    ∧ ¬ (utf16 "a$$b").Sublist
        (overlay toLowerCaseASCII none (utf16 "a$$b") [exampleSpan "X" 0 4]) := by
  decide

set_option maxRecDepth 100000 in
/-- Claim C2, counterexample: for `abcdef` with `X = [0,4)` and `Y = [2,6)` the overlay yields
the element of `X` around `abcd` followed by a plain `ef`; no element of `Y` is written, so
`ef` is not shown under `Y`. -/
theorem overlap_example_not_shown :
    overlay toLowerCaseASCII none (utf16 "abcdef") [exampleSpan "X" 0 4, exampleSpan "Y" 2 6]
      = utf16 "<span class=\"marker marker-x \" tabindex=\"0\" data-marker-id=\"X\">abcd</span>ef"
    ∧ ¬ ShownUnder toLowerCaseASCII none
        (overlay toLowerCaseASCII none (utf16 "abcdef")
          [exampleSpan "X" 0 4, exampleSpan "Y" 2 6])
        (exampleSpan "Y" 2 6) (utf16 "ef") := by
  refine ⟨by decide, ?_⟩
  rintro ⟨p, c₁, c₂, q, h⟩
  have hinf : openTag toLowerCaseASCII none (exampleSpan "Y" 2 6) <:+:
      overlay toLowerCaseASCII none (utf16 "abcdef")
        [exampleSpan "X" 0 4, exampleSpan "Y" 2 6] :=
    ⟨p, c₁ ++ utf16 "ef" ++ c₂ ++ closeTag ++ q, by rw [h]; simp only [List.append_assoc]⟩
  revert hinf
  decide

/-- Claim C2, amended: for two valid markers that partially overlap (`a0 < b0 < a1 < b1`), on a
text without `$`, `<` and `>` and with ids and lower-cased types without `$`, only the marker
processed first is wrapped, when its snippet first occurs in the text at its own start and the
snippet of the other marker occurs in the text only at its own place and is not part of the
tags of the first: the tag that ends (or starts) the first element cuts the only occurrence
of the other snippet. If `A` is first, `text[a0:b0]` and `text[b0:a1]` lie in the element of
`A` and `text[a1:b1]` is plain; if `B` is first, `text[a0:b0]` is plain and `text[b0:a1]` and
`text[a1:b1]` lie in the element of `B`. -/
theorem overlap_wraps_first_processed_only (toLowerCase : JSString → JSString)
    (selectedMarkerId : Option JSString) (text : JSString) (A B : Marker) (ms : List Marker)
    (hA : ValidSpan text A) (hB : ValidSpan text B)
    (hov : A.start < B.start ∧ B.start < A.end_ ∧ A.end_ < B.end_)
    (hd : DollarFree toLowerCase text [A, B])
    (hplain : 60 ∉ text ∧ 62 ∉ text) :
    (sortedMarkers ms = [A, B] →
      stringIndexOf (snippet text A) text = some A.start.toNat →
      OccursOnlyAt (snippet text B) text B.start.toNat →
      ¬ snippet text B <:+: openTag toLowerCase selectedMarkerId A →
      ¬ snippet text B <:+: closeTag →
      overlay toLowerCase selectedMarkerId text ms
        = substring text 0 A.start
            ++ spanElement toLowerCase selectedMarkerId A
                (substring text A.start B.start ++ substring text B.start A.end_)
            ++ substring text A.end_ B.end_ ++ substring text B.end_ (text.length : Int))
    ∧ (sortedMarkers ms = [B, A] →
      stringIndexOf (snippet text B) text = some B.start.toNat →
      OccursOnlyAt (snippet text A) text A.start.toNat →
      ¬ snippet text A <:+: openTag toLowerCase selectedMarkerId B →
      ¬ snippet text A <:+: closeTag →
      overlay toLowerCase selectedMarkerId text ms
        = substring text 0 A.start ++ substring text A.start B.start
            ++ spanElement toLowerCase selectedMarkerId B
                (substring text B.start A.end_ ++ substring text A.end_ B.end_)
            ++ substring text B.end_ (text.length : Int)) := by
  obtain ⟨hdt, hdm⟩ := hd
  obtain ⟨hAid, hAty⟩ := hdm A (by simp)
  obtain ⟨hBid, hBty⟩ := hdm B (by simp)
  obtain ⟨a0, a1, a2⟩ := hA
  obtain ⟨b0, b1, b2⟩ := hB
  obtain ⟨o0, o1, o2⟩ := hov
  obtain ⟨h60, h62⟩ := hplain
  have lA : (snippet text A).length = (A.end_ - A.start).toNat :=
    length_substring text A.start A.end_ a0 (le_of_lt a1) a2
  have lB : (snippet text B).length = (B.end_ - B.start).toNat :=
    length_substring text B.start B.end_ b0 (le_of_lt b1) b2
  constructor
  · intro hs hiA huniq htag hclose
    have htext := text_split text A ⟨a0, a1, a2⟩
    have lu := length_substring text 0 A.start (le_refl _) a0 (by omega)
    obtain ⟨innerO, hop⟩ := openTag_shape toLowerCase selectedMarkerId A
    have hu : ¬ snippet text B <:+: substring text 0 A.start :=
      not_occurs_in_piece _ text [] _ (snippet text A ++ substring text A.end_ text.length) _
        (by rw [List.nil_append, ← List.append_assoc]; exact htext) huniq
        (by simp only [List.length_nil, lu, lB]; omega)
    have hs' : ¬ snippet text B <:+: snippet text A :=
      not_occurs_in_piece _ text (substring text 0 A.start) _ _ _ htext huniq
        (by simp only [lu, lA, lB]; omega)
    have hy : ¬ snippet text B <:+: substring text A.end_ text.length :=
      not_occurs_in_piece _ text (substring text 0 A.start ++ snippet text A) _ [] _
        (by rw [List.append_nil]; exact htext) huniq
        (by simp only [List.length_append, lu, lA, lB]; omega)
    have hlost : ¬ snippet text B <:+: substring text 0 A.start
        ++ spanElement toLowerCase selectedMarkerId A (snippet text A)
        ++ substring text A.end_ text.length :=
      not_occurs_between_tags (snippet text B) (substring text 0 A.start)
        (snippet text A) (substring text A.end_ text.length)
        (openTag toLowerCase selectedMarkerId A) closeTag innerO (utf16 "/span") hop
        closeTag_shape (not_mem_substring text _ _ 60 h60) (not_mem_substring text _ _ 62 h62)
        hu hs' hy htag hclose
    have hiB := stringIndexOf_eq_none _ _ hlost
    rw [overlay_of_sorted_pair _ _ _ _ _ _ hs]
    have step1 := markerStep_at toLowerCase selectedMarkerId text text _ _ A _ htext hiA
      (by rw [lu]; simp) hdt hAid hAty
    rw [step1]
    rw [markerStep_lost _ _ _ _ _ hiB]
    unfold snippet
    rw [substring_append text A.start B.start A.end_ a0 (le_of_lt o0) (le_of_lt o1) a2,
      List.append_assoc _ (substring text A.end_ B.end_),
      substring_append text A.end_ B.end_ _ (by omega) (le_of_lt o2) b2 (le_refl _)]
  · intro hs hiB huniq htag hclose
    have htext := text_split text B ⟨b0, b1, b2⟩
    have lu := length_substring text 0 B.start (le_refl _) b0 (by omega)
    obtain ⟨innerO, hop⟩ := openTag_shape toLowerCase selectedMarkerId B
    have hu : ¬ snippet text A <:+: substring text 0 B.start :=
      not_occurs_in_piece _ text [] _ (snippet text B ++ substring text B.end_ text.length) _
        (by rw [List.nil_append, ← List.append_assoc]; exact htext) huniq
        (by simp only [List.length_nil, lu, lA]; omega)
    have hs' : ¬ snippet text A <:+: snippet text B :=
      not_occurs_in_piece _ text (substring text 0 B.start) _ _ _ htext huniq
        (by simp only [lu, lA, lB]; omega)
    have hy : ¬ snippet text A <:+: substring text B.end_ text.length :=
      not_occurs_in_piece _ text (substring text 0 B.start ++ snippet text B) _ [] _
        (by rw [List.append_nil]; exact htext) huniq
        (by simp only [List.length_append, lu, lA, lB]; omega)
    have hlost : ¬ snippet text A <:+: substring text 0 B.start
        ++ spanElement toLowerCase selectedMarkerId B (snippet text B)
        ++ substring text B.end_ text.length :=
      not_occurs_between_tags (snippet text A) (substring text 0 B.start)
        (snippet text B) (substring text B.end_ text.length)
        (openTag toLowerCase selectedMarkerId B) closeTag innerO (utf16 "/span") hop
        closeTag_shape (not_mem_substring text _ _ 60 h60) (not_mem_substring text _ _ 62 h62)
        hu hs' hy htag hclose
    have hiA := stringIndexOf_eq_none _ _ hlost
    rw [overlay_of_sorted_pair _ _ _ _ _ _ hs]
    have step1 := markerStep_at toLowerCase selectedMarkerId text text _ _ B _ htext hiB
      (by rw [lu]; simp) hdt hBid hBty
    rw [step1]
    rw [markerStep_lost _ _ _ _ _ hiA]
    unfold snippet
    rw [substring_append text 0 A.start B.start (le_refl _) a0 (le_of_lt o0) (by omega),
      substring_append text B.start A.end_ B.end_ b0 (le_of_lt o1) (le_of_lt o2) b2]

/-- Claim C2, witness: the amended statement at `abcdef` with `X = [0,4)` and `Y = [2,6)`,
where `X` is processed first, and at `abcdefg` with `X = [0,4)` and `Y = [2,7)`, where the
longer `Y` is processed first. -/
theorem overlap_example_first_only :
    overlay toLowerCaseASCII none (utf16 "abcdef") [exampleSpan "X" 0 4, exampleSpan "Y" 2 6]
      = substring (utf16 "abcdef") 0 (exampleSpan "X" 0 4).start
          ++ spanElement toLowerCaseASCII none (exampleSpan "X" 0 4)
              (substring (utf16 "abcdef") (exampleSpan "X" 0 4).start (exampleSpan "Y" 2 6).start
                ++ substring (utf16 "abcdef") (exampleSpan "Y" 2 6).start
                    (exampleSpan "X" 0 4).end_)
          ++ substring (utf16 "abcdef") (exampleSpan "X" 0 4).end_ (exampleSpan "Y" 2 6).end_
          ++ substring (utf16 "abcdef") (exampleSpan "Y" 2 6).end_
              ((utf16 "abcdef").length : Int)
    ∧ overlay toLowerCaseASCII none (utf16 "abcdefg") [exampleSpan "X" 0 4, exampleSpan "Y" 2 7]
      = substring (utf16 "abcdefg") 0 (exampleSpan "X" 0 4).start
          ++ substring (utf16 "abcdefg") (exampleSpan "X" 0 4).start (exampleSpan "Y" 2 7).start
          ++ spanElement toLowerCaseASCII none (exampleSpan "Y" 2 7)
              (substring (utf16 "abcdefg") (exampleSpan "Y" 2 7).start (exampleSpan "X" 0 4).end_
                ++ substring (utf16 "abcdefg") (exampleSpan "X" 0 4).end_
                    (exampleSpan "Y" 2 7).end_)
          ++ substring (utf16 "abcdefg") (exampleSpan "Y" 2 7).end_
              ((utf16 "abcdefg").length : Int) :=
  ⟨(overlap_wraps_first_processed_only toLowerCaseASCII none (utf16 "abcdef")
      (exampleSpan "X" 0 4) (exampleSpan "Y" 2 6) [exampleSpan "X" 0 4, exampleSpan "Y" 2 6]
      (by decide) (by decide) (by decide) (by decide) (by decide)).1
      (by decide) (by decide) (by decide) (by decide) (by decide),
   (overlap_wraps_first_processed_only toLowerCaseASCII none (utf16 "abcdefg")
      (exampleSpan "X" 0 4) (exampleSpan "Y" 2 7) [exampleSpan "X" 0 4, exampleSpan "Y" 2 7]
      (by decide) (by decide) (by decide) (by decide) (by decide)).2
      (by decide) (by decide) (by decide) (by decide) (by decide)⟩

/-- Claim C3, counterexample: for `cdabcd` with `X = [0,6)` and `Y = [4,6)`, `Y` lies strictly
inside `X`, yet the element of `Y` wraps the first `cd`, at offset `0`, not `text[4:6]`. -/
theorem nested_first_occurrence_elsewhere :
    ValidSpan (utf16 "cdabcd") (exampleSpan "X" 0 6)
    ∧ ValidSpan (utf16 "cdabcd") (exampleSpan "Y" 4 6)
    ∧ overlay toLowerCaseASCII none (utf16 "cdabcd") [exampleSpan "X" 0 6, exampleSpan "Y" 4 6]
        = spanElement toLowerCaseASCII none (exampleSpan "X" 0 6)
            (spanElement toLowerCaseASCII none (exampleSpan "Y" 4 6) (utf16 "cd")
              ++ utf16 "abcd")
    ∧ overlay toLowerCaseASCII none (utf16 "cdabcd") [exampleSpan "X" 0 6, exampleSpan "Y" 4 6]
        ≠ substring (utf16 "cdabcd") 0 0
            ++ spanElement toLowerCaseASCII none (exampleSpan "X" 0 6)
                (substring (utf16 "cdabcd") 0 4
                  ++ spanElement toLowerCaseASCII none (exampleSpan "Y" 4 6)
                      (substring (utf16 "cdabcd") 4 6)
                  ++ substring (utf16 "cdabcd") 6 6)
            ++ substring (utf16 "cdabcd") 6 6 := by
  decide

/-- Claim C3, amended: for two valid markers with `B` strictly inside `A` (in either list order)
on inputs without `$`, when the snippet of `A` first occurs in the text at `a0` and the
snippet of `B` first occurs in the content produced for `A` at its own place, `b0` shifted
by the opening tag of `A`, the overlay is `text[0:a0]`, the element of `A` holding
`text[a0:b0]`, the element of `B` around `text[b0:b1]` and `text[b1:a1]`, then `text[a1:]`. -/
theorem nested_spans_in_place (toLowerCase : JSString → JSString)
    (selectedMarkerId : Option JSString) (text : JSString) (A B : Marker) (ms : List Marker)
    (hms : ms = [A, B] ∨ ms = [B, A])
    (hA : ValidSpan text A) (hB : ValidSpan text B)
    (hin : A.start ≤ B.start ∧ B.end_ ≤ A.end_) (hshort : spanLength B < spanLength A)
    (hd : DollarFree toLowerCase text [A, B])
    (hiA : stringIndexOf (snippet text A) text = some A.start.toNat)
    (hiB : stringIndexOf (snippet text B) (overlay toLowerCase selectedMarkerId text [A])
        = some (B.start.toNat + (openTag toLowerCase selectedMarkerId A).length)) :
    overlay toLowerCase selectedMarkerId text ms
      = substring text 0 A.start
          ++ spanElement toLowerCase selectedMarkerId A
              (substring text A.start B.start
                ++ spanElement toLowerCase selectedMarkerId B (substring text B.start B.end_)
                ++ substring text B.end_ A.end_)
          ++ substring text A.end_ (text.length : Int) := by
  obtain ⟨hdt, hdm⟩ := hd
  obtain ⟨hAid, hAty⟩ := hdm A (by simp)
  obtain ⟨hBid, hBty⟩ := hdm B (by simp)
  obtain ⟨a0, a1, a2⟩ := hA
  obtain ⟨b0, b1, b2⟩ := hB
  obtain ⟨i0, i1⟩ := hin
  have hs : sortedMarkers ms = [A, B] := by
    rcases hms with rfl | rfl
    · exact (sortedMarkers_pair_of_lt A B hshort).1
    · exact (sortedMarkers_pair_of_lt A B hshort).2
  have hsnip : snippet text A
      = substring text A.start B.start ++ snippet text B ++ substring text B.end_ A.end_ := by
    unfold snippet
    rw [substring_append text A.start B.start B.end_ a0 i0 (le_of_lt b1) b2,
      substring_append text A.start B.end_ A.end_ a0 (by omega) i1 a2]
  have htext := text_split text A ⟨a0, a1, a2⟩
  have lu := length_substring text 0 A.start (le_refl _) a0 (by omega)
  have lv := length_substring text A.start B.start a0 i0 (by omega)
  rw [overlay_of_sorted_pair _ _ _ _ _ _ hs]
  rw [overlay_single] at hiB
  have step1 := markerStep_at toLowerCase selectedMarkerId text text _ _ A _ htext hiA
    (by rw [lu]; simp) hdt hAid hAty
  rw [step1] at hiB ⊢
  have step2 := markerStep_at toLowerCase selectedMarkerId text
    (substring text 0 A.start ++ spanElement toLowerCase selectedMarkerId A (snippet text A)
      ++ substring text A.end_ (text.length : Int))
    (substring text 0 A.start ++ openTag toLowerCase selectedMarkerId A
      ++ substring text A.start B.start)
    (substring text B.end_ A.end_ ++ closeTag ++ substring text A.end_ (text.length : Int)) B _
    (by
      unfold spanElement
      rw [hsnip]
      simp only [List.append_assoc]) hiB
    (by
      simp only [List.length_append, lu, lv]
      omega) hdt hBid hBty
  rw [step2]
  simp only [spanElement, snippet, List.append_assoc]

/-- Claim C3, witness: the amended statement at `abcdef` with `X = [0,6)` and `Y = [2,4)`, the
example of the claim. -/
theorem nested_example :
    overlay toLowerCaseASCII none (utf16 "abcdef") [exampleSpan "X" 0 6, exampleSpan "Y" 2 4]
      = substring (utf16 "abcdef") 0 (exampleSpan "X" 0 6).start
          ++ spanElement toLowerCaseASCII none (exampleSpan "X" 0 6)
              (substring (utf16 "abcdef") (exampleSpan "X" 0 6).start (exampleSpan "Y" 2 4).start
                ++ spanElement toLowerCaseASCII none (exampleSpan "Y" 2 4)
                    (substring (utf16 "abcdef") (exampleSpan "Y" 2 4).start
                      (exampleSpan "Y" 2 4).end_)
                ++ substring (utf16 "abcdef") (exampleSpan "Y" 2 4).end_
                    (exampleSpan "X" 0 6).end_)
          ++ substring (utf16 "abcdef") (exampleSpan "X" 0 6).end_
              ((utf16 "abcdef").length : Int) :=
  nested_spans_in_place toLowerCaseASCII none (utf16 "abcdef")
    (exampleSpan "X" 0 6) (exampleSpan "Y" 2 4) [exampleSpan "X" 0 6, exampleSpan "Y" 2 4]
    (by decide) (by decide) (by decide) (by decide) (by decide) (by decide) (by decide)
    (by decide)

/-- Claim C4, counterexample: for `cd cd` with `X = [0,2)` and `Y = [3,5)` the spans are
disjoint, yet the element of `Y` wraps the first `cd`, inside the element of `X`, and
`text[3:5]` stays plain. -/
theorem disjoint_first_occurrence_elsewhere :
    ValidSpan (utf16 "cd cd") (exampleSpan "X" 0 2)
    ∧ ValidSpan (utf16 "cd cd") (exampleSpan "Y" 3 5)
    ∧ overlay toLowerCaseASCII none (utf16 "cd cd") [exampleSpan "X" 0 2, exampleSpan "Y" 3 5]
        = spanElement toLowerCaseASCII none (exampleSpan "X" 0 2)
            (spanElement toLowerCaseASCII none (exampleSpan "Y" 3 5) (utf16 "cd"))
          ++ utf16 " cd"
    ∧ overlay toLowerCaseASCII none (utf16 "cd cd") [exampleSpan "X" 0 2, exampleSpan "Y" 3 5]
        ≠ substring (utf16 "cd cd") 0 0
            ++ spanElement toLowerCaseASCII none (exampleSpan "X" 0 2)
                (substring (utf16 "cd cd") 0 2)
            ++ substring (utf16 "cd cd") 2 3
            ++ spanElement toLowerCaseASCII none (exampleSpan "Y" 3 5)
                (substring (utf16 "cd cd") 3 5)
            ++ substring (utf16 "cd cd") 5 5 := by
  decide

/-- Claim C4, amended: for two valid disjoint markers (`a1 <= b0`) on inputs without `$`, when
in the processing order each snippet first occurs, in the content at the time it is
processed, at the own place of its marker, the overlay is `text[0:a0]`, the element of `A`
around `text[a0:a1]`, `text[a1:b0]`, the element of `B` around `text[b0:b1]`, then
`text[b1:]`. -/
theorem disjoint_spans_in_place (toLowerCase : JSString → JSString)
    (selectedMarkerId : Option JSString) (text : JSString) (A B : Marker) (ms : List Marker)
    (hA : ValidSpan text A) (hB : ValidSpan text B) (hdisj : A.end_ ≤ B.start)
    (hd : DollarFree toLowerCase text [A, B])
    (hfound :
      (sortedMarkers ms = [A, B]
        ∧ stringIndexOf (snippet text A) text = some A.start.toNat
        ∧ stringIndexOf (snippet text B) (overlay toLowerCase selectedMarkerId text [A])
            = some (B.start.toNat + (openTag toLowerCase selectedMarkerId A).length
                + closeTag.length))
      ∨ (sortedMarkers ms = [B, A]
        ∧ stringIndexOf (snippet text B) text = some B.start.toNat
        ∧ stringIndexOf (snippet text A) (overlay toLowerCase selectedMarkerId text [B])
            = some A.start.toNat)) :
    overlay toLowerCase selectedMarkerId text ms
      = substring text 0 A.start
          ++ spanElement toLowerCase selectedMarkerId A (substring text A.start A.end_)
          ++ substring text A.end_ B.start
          ++ spanElement toLowerCase selectedMarkerId B (substring text B.start B.end_)
          ++ substring text B.end_ (text.length : Int) := by
  obtain ⟨hdt, hdm⟩ := hd
  obtain ⟨hAid, hAty⟩ := hdm A (by simp)
  obtain ⟨hBid, hBty⟩ := hdm B (by simp)
  obtain ⟨a0, a1, a2⟩ := hA
  obtain ⟨b0, b1, b2⟩ := hB
  -- the five pieces of the text
  have hrest : substring text A.end_ (text.length : Int)
      = substring text A.end_ B.start ++ snippet text B
          ++ substring text B.end_ (text.length : Int) := by
    unfold snippet
    rw [substring_append text A.end_ B.start B.end_ (by omega) hdisj (le_of_lt b1) b2,
      substring_append text A.end_ B.end_ _ (by omega) (by omega) b2 (le_refl _)]
  have htext := text_split text A ⟨a0, a1, a2⟩
  have lu := length_substring text 0 A.start (le_refl _) a0 (by omega)
  have lA : (snippet text A).length = (A.end_ - A.start).toNat :=
    length_substring text A.start A.end_ a0 (le_of_lt a1) a2
  have lw := length_substring text A.end_ B.start (by omega) hdisj (by omega)
  rcases hfound with ⟨hs, hiA, hiB⟩ | ⟨hs, hiB, hiA⟩
  · rw [overlay_of_sorted_pair _ _ _ _ _ _ hs]
    rw [overlay_single] at hiB
    have step1 := markerStep_at toLowerCase selectedMarkerId text text _ _ A _ htext hiA
      (by rw [lu]; simp) hdt hAid hAty
    rw [step1] at hiB ⊢
    have step2 := markerStep_at toLowerCase selectedMarkerId text
      (substring text 0 A.start ++ spanElement toLowerCase selectedMarkerId A (snippet text A)
        ++ substring text A.end_ (text.length : Int))
      (substring text 0 A.start ++ spanElement toLowerCase selectedMarkerId A (snippet text A)
        ++ substring text A.end_ B.start)
      (substring text B.end_ (text.length : Int)) B _
      (by rw [hrest]; simp only [List.append_assoc]) hiB
      (by
        simp only [List.length_append, spanElement, lu, lA, lw]
        omega) hdt hBid hBty
    rw [step2]
    rfl
  · rw [overlay_of_sorted_pair _ _ _ _ _ _ hs]
    rw [overlay_single] at hiA
    have htextB : text = (substring text 0 A.start ++ snippet text A
        ++ substring text A.end_ B.start) ++ snippet text B
        ++ substring text B.end_ (text.length : Int) := by
      conv_lhs => rw [htext, hrest]
      simp only [List.append_assoc]
    have step1 := markerStep_at toLowerCase selectedMarkerId text text _ _ B _ htextB hiB
      (by
        simp only [List.length_append, lu, lA, lw]
        omega) hdt hBid hBty
    rw [step1] at hiA ⊢
    have step2 := markerStep_at toLowerCase selectedMarkerId text
      (substring text 0 A.start ++ snippet text A ++ substring text A.end_ B.start
        ++ spanElement toLowerCase selectedMarkerId B (snippet text B)
        ++ substring text B.end_ (text.length : Int))
      (substring text 0 A.start)
      (substring text A.end_ B.start
        ++ spanElement toLowerCase selectedMarkerId B (snippet text B)
        ++ substring text B.end_ (text.length : Int)) A _
      (by simp only [List.append_assoc]) hiA (by rw [lu]; simp) hdt hAid hAty
    rw [step2]
    simp only [snippet, List.append_assoc]

/-- Claim C4, witness: the amended statement at `ab cd` with `X = [0,2)` and `Y = [3,5)`,
the example of the claim, where `X` is processed first, and at `ab cde` with `X = [0,2)` and
`Y = [3,6)`, where the longer `Y` is processed first. -/
theorem disjoint_example :
    overlay toLowerCaseASCII none (utf16 "ab cd") [exampleSpan "X" 0 2, exampleSpan "Y" 3 5]
      = substring (utf16 "ab cd") 0 (exampleSpan "X" 0 2).start
          ++ spanElement toLowerCaseASCII none (exampleSpan "X" 0 2)
              (substring (utf16 "ab cd") (exampleSpan "X" 0 2).start (exampleSpan "X" 0 2).end_)
          ++ substring (utf16 "ab cd") (exampleSpan "X" 0 2).end_ (exampleSpan "Y" 3 5).start
          ++ spanElement toLowerCaseASCII none (exampleSpan "Y" 3 5)
              (substring (utf16 "ab cd") (exampleSpan "Y" 3 5).start (exampleSpan "Y" 3 5).end_)
          ++ substring (utf16 "ab cd") (exampleSpan "Y" 3 5).end_
              ((utf16 "ab cd").length : Int)
    ∧ overlay toLowerCaseASCII none (utf16 "ab cde") [exampleSpan "X" 0 2, exampleSpan "Y" 3 6]
      = substring (utf16 "ab cde") 0 (exampleSpan "X" 0 2).start
          ++ spanElement toLowerCaseASCII none (exampleSpan "X" 0 2)
              (substring (utf16 "ab cde") (exampleSpan "X" 0 2).start (exampleSpan "X" 0 2).end_)
          ++ substring (utf16 "ab cde") (exampleSpan "X" 0 2).end_ (exampleSpan "Y" 3 6).start
          ++ spanElement toLowerCaseASCII none (exampleSpan "Y" 3 6)
              (substring (utf16 "ab cde") (exampleSpan "Y" 3 6).start (exampleSpan "Y" 3 6).end_)
          ++ substring (utf16 "ab cde") (exampleSpan "Y" 3 6).end_
              ((utf16 "ab cde").length : Int) :=
  ⟨disjoint_spans_in_place toLowerCaseASCII none (utf16 "ab cd")
      (exampleSpan "X" 0 2) (exampleSpan "Y" 3 5) [exampleSpan "X" 0 2, exampleSpan "Y" 3 5]
      (by decide) (by decide) (by decide) (by decide) (Or.inl (by decide)),
   disjoint_spans_in_place toLowerCaseASCII none (utf16 "ab cde")
      (exampleSpan "X" 0 2) (exampleSpan "Y" 3 6) [exampleSpan "X" 0 2, exampleSpan "Y" 3 6]
      (by decide) (by decide) (by decide) (by decide) (Or.inr (by decide))⟩

/-- Claim C5, counterexample: the markers `[3,1)` and `[3,9)` on `hello` violate the offset
invariant, and the overlay wraps `el` and `lo` for them without any error. -/
theorem invalid_span_silently_wrapped :
    ¬ ValidSpan (utf16 "hello") (exampleSpan "X" 3 1)
    ∧ overlay toLowerCaseASCII none (utf16 "hello") [exampleSpan "X" 3 1]
        = utf16 "h" ++ spanElement toLowerCaseASCII none (exampleSpan "X" 3 1) (utf16 "el")
            ++ utf16 "lo"
    ∧ ¬ ValidSpan (utf16 "hello") (exampleSpan "X" 3 9)
    ∧ overlay toLowerCaseASCII none (utf16 "hello") [exampleSpan "X" 3 9]
        = utf16 "hel" ++ spanElement toLowerCaseASCII none (exampleSpan "X" 3 9) (utf16 "lo") := by
  decide

/-- Claim C5, amended: the overlay validates no offsets and rejects nothing. For a marker with
`start >= end` or `end > length(text)` the snippet is `text.substring(start, end)` with
clamped and swapped offsets, that is `text[end:start]` when `start >= end` and
`text[start:]` otherwise; this snippet occurs in the text, and the overlay of that single
marker replaces its first occurrence by the expansion of the span element of the marker. -/
theorem invalid_span_not_rejected (toLowerCase : JSString → JSString)
    (selectedMarkerId : Option JSString) (text : JSString) (m : Marker)
    (hinv : m.end_ ≤ m.start ∨ (text.length : Int) < m.end_) :
    snippet text m
      = (if m.end_ ≤ m.start then substring text m.end_ m.start
          else substring text m.start (text.length : Int))
    ∧ ∃ p q, text = p ++ snippet text m ++ q
        ∧ stringIndexOf (snippet text m) text = some p.length
        ∧ overlay toLowerCase selectedMarkerId text [m]
            = p ++ getSubstitution (snippet text m) text p.length
                (spanElement toLowerCase selectedMarkerId m (snippet text m)) ++ q := by
  constructor
  · by_cases h : m.end_ ≤ m.start
    · rw [if_pos h]
      exact substring_comm text m.start m.end_
    · rw [if_neg h]
      rcases hinv with h' | h'
      · exact absurd h' h
      · exact substring_of_length_le text m.start m.end_ (le_of_lt h')
  · obtain ⟨p₀, q₀, h₀⟩ := substring_occurs text m.start m.end_
    obtain ⟨k, hk⟩ := stringIndexOf_of_occurs (substring text m.start m.end_) p₀ q₀
    rw [← h₀] at hk
    obtain ⟨p, q, hs, hl, hr⟩ := replace_found text (snippet text m)
      (spanElement toLowerCase selectedMarkerId m (snippet text m)) k hk
    subst hl
    exact ⟨p, q, hs, hk, hr⟩

/-- Claim C5, witness: the amended statement at `hello` with the empty span `[2,2)`. -/
theorem invalid_span_not_rejected_witness :
    snippet (utf16 "hello") (exampleSpan "X" 2 2)
      = (if (exampleSpan "X" 2 2).end_ ≤ (exampleSpan "X" 2 2).start
          then substring (utf16 "hello") (exampleSpan "X" 2 2).end_ (exampleSpan "X" 2 2).start
          else substring (utf16 "hello") (exampleSpan "X" 2 2).start
            ((utf16 "hello").length : Int))
    ∧ ∃ p q, utf16 "hello" = p ++ snippet (utf16 "hello") (exampleSpan "X" 2 2) ++ q
        ∧ stringIndexOf (snippet (utf16 "hello") (exampleSpan "X" 2 2)) (utf16 "hello")
            = some p.length
        ∧ overlay toLowerCaseASCII none (utf16 "hello") [exampleSpan "X" 2 2]
            = p ++ getSubstitution (snippet (utf16 "hello") (exampleSpan "X" 2 2))
                (utf16 "hello") p.length
                (spanElement toLowerCaseASCII none (exampleSpan "X" 2 2)
                  (snippet (utf16 "hello") (exampleSpan "X" 2 2))) ++ q :=
  invalid_span_not_rejected toLowerCaseASCII none (utf16 "hello") (exampleSpan "X" 2 2)
    (Or.inl (by decide))

/-- Claim C6: when no marker matches the message with an active layer, `htmlContent` is the
message text, unchanged. -/
theorem no_span_identity (toLowerCase : JSString → JSString) (activeLayers : JSString → Bool)
    (selectedMarkerId : Option JSString) (markers : List Marker) (msg : Message)
    (h : msgMarkers activeLayers markers msg = []) :
    htmlContent toLowerCase activeLayers selectedMarkerId markers msg = msg.text := by
  unfold htmlContent
  rw [h]
  rfl

/-- Claim C6, witness: a message with the empty text and no marker of its own, all layers
active. -/
theorem no_span_identity_witness :
    msgMarkers (fun _ => true) MOCK_MARKERS
        { id := utf16 "m3", speaker := utf16 "Client", text := utf16 "" } = []
    ∧ htmlContent toLowerCaseASCII (fun _ => true) none MOCK_MARKERS
        { id := utf16 "m3", speaker := utf16 "Client", text := utf16 "" } = utf16 "" :=
  ⟨by decide, no_span_identity toLowerCaseASCII (fun _ => true) none MOCK_MARKERS
    { id := utf16 "m3", speaker := utf16 "Client", text := utf16 "" } (by decide)⟩

/-- Claim C7, evaluation at the failing input: for the text `$$` and the single marker `[0,2)`
over the whole text, the content of the element is `$`, not the text. -/
theorem full_cover_fails_on_dollar :
    (exampleSpan "X" 0 2).start = 0
    ∧ (exampleSpan "X" 0 2).end_ = ((utf16 "$$").length : Int)
    ∧ overlay toLowerCaseASCII none (utf16 "$$") [exampleSpan "X" 0 2]
        = spanElement toLowerCaseASCII none (exampleSpan "X" 0 2) (utf16 "$")
    ∧ overlay toLowerCaseASCII none (utf16 "$$") [exampleSpan "X" 0 2]
        ≠ spanElement toLowerCaseASCII none (exampleSpan "X" 0 2) (utf16 "$$") := by
  decide

/-- Claim C8, counterexample: two markers of equal length listed with ids `b`, `a` stay in that
order, which is not ascending by id. -/
theorem sortedMarkers_ties_not_by_id :
    sortedMarkers [exampleSpan "b" 0 2, exampleSpan "a" 3 5]
      = [exampleSpan "b" 0 2, exampleSpan "a" 3 5]
    ∧ ¬ OrderedByLengthThenId (sortedMarkers [exampleSpan "b" 0 2, exampleSpan "a" 3 5]) := by
  decide

/-- Claim C8, amended: for every list of markers with offsets of magnitude at most `2^51`, the
lengths and the values of the comparator of line 48 are integers of magnitude at most `2^52`
and `2^53`, so the subtraction of doubles is exact; `sortedMarkers` is a permutation of the
list, ordered by `(end - start)` descending, and the markers of any one length `k` keep the
relative order they have in the input list. -/
theorem sortedMarkers_stable_by_length (ms : List Marker)
    (hsafe : ∀ m ∈ ms, SafeOffsets m) :
    (∀ a ∈ ms, ∀ b ∈ ms,
      |spanLength a| ≤ 2 ^ 52 ∧ |spanLength b| ≤ 2 ^ 52 ∧ |compareMarkers a b| ≤ 2 ^ 53)
    ∧ (sortedMarkers ms).Perm ms
    ∧ (sortedMarkers ms).Pairwise (fun a b => spanLength b ≤ spanLength a)
    ∧ ∀ k : Int, (sortedMarkers ms).filter (fun m => decide (spanLength m = k))
        = ms.filter (fun m => decide (spanLength m = k)) := by
  refine ⟨?_, sortedMarkers_perm ms, ?_, ?_⟩
  · intro a ha b hb
    obtain ⟨a1, a2, a3, a4⟩ := hsafe a ha
    obtain ⟨b1, b2, b3, b4⟩ := hsafe b hb
    simp only [spanLength, compareMarkers, abs_le]
    norm_num at a1 a2 a3 a4 b1 b2 b3 b4 ⊢
    omega
  · induction ms with
    | nil => exact List.Pairwise.nil
    | cons x xs ih =>
      exact insertSorted_pairwise x _ (ih (fun m hm => hsafe m (List.mem_cons_of_mem _ hm)))
  · intro k
    induction ms with
    | nil => rfl
    | cons x xs ih =>
      show (insertSorted compareMarkers x (sortedMarkers xs)).filter _ = _
      rw [insertSorted_filter k x, List.filter_cons, List.filter_cons,
        ih (fun m hm => hsafe m (List.mem_cons_of_mem _ hm))]

/-- Claim C8, witness: the two markers of equal length with the ids `b`, `a`. -/
theorem sortedMarkers_stable_by_length_witness :
    (∀ a ∈ [exampleSpan "b" 0 2, exampleSpan "a" 3 5],
      ∀ b ∈ [exampleSpan "b" 0 2, exampleSpan "a" 3 5],
      |spanLength a| ≤ 2 ^ 52 ∧ |spanLength b| ≤ 2 ^ 52 ∧ |compareMarkers a b| ≤ 2 ^ 53)
    ∧ (sortedMarkers [exampleSpan "b" 0 2, exampleSpan "a" 3 5]).Perm
        [exampleSpan "b" 0 2, exampleSpan "a" 3 5]
    ∧ (sortedMarkers [exampleSpan "b" 0 2, exampleSpan "a" 3 5]).Pairwise
        (fun a b => spanLength b ≤ spanLength a)
    ∧ ∀ k : Int,
        (sortedMarkers [exampleSpan "b" 0 2, exampleSpan "a" 3 5]).filter
            (fun m => decide (spanLength m = k))
          = [exampleSpan "b" 0 2, exampleSpan "a" 3 5].filter
              (fun m => decide (spanLength m = k)) :=
  sortedMarkers_stable_by_length [exampleSpan "b" 0 2, exampleSpan "a" 3 5] (by decide)

/-- Claim C9: for the text `ab ab` and the valid marker `[3,5)` the snippet `ab` first occurs at
offset `0`, before the start of the marker, and the span element is inserted there, around
`text[0:2]`. -/
theorem first_occurrence_mismatch :
    ∃ (text : JSString) (m : Marker) (k : Nat),
      ValidSpan text m
      ∧ stringIndexOf (snippet text m) text = some k
      ∧ (k : Int) < m.start
      ∧ overlay toLowerCaseASCII none text [m]
          = text.take k ++ spanElement toLowerCaseASCII none m (snippet text m)
              ++ text.drop (k + (snippet text m).length) :=
  ⟨utf16 "ab ab", exampleSpan "X" 3 5, 0, by decide⟩

set_option maxRecDepth 100000 in
/-- Claim C10: every marker of `MOCK_MARKERS` names a message of `MOCK_TRANSCRIPT` and satisfies
`0 <= start < end <= length(text)` for the text of that message, in UTF-16 code units. -/
theorem mock_markers_valid :
    ∀ m ∈ MOCK_MARKERS, ∃ msg ∈ MOCK_TRANSCRIPT, m.msgId = msg.id ∧ ValidSpan msg.text m := by
  decide

set_option maxRecDepth 100000 in
/-- Claim C10, witness: the first marker of `MOCK_MARKERS`. -/
theorem mock_markers_valid_witness :
    ∃ msg ∈ MOCK_TRANSCRIPT,
      ({ id := utf16 "ann_001", msgId := utf16 "m1", type := utf16 "ATO",
         start := 45, end_ := 58, label := utf16 "Grenzen klar" } : Marker).msgId = msg.id
      ∧ ValidSpan msg.text
          { id := utf16 "ann_001", msgId := utf16 "m1", type := utf16 "ATO",
            start := 45, end_ := 58, label := utf16 "Grenzen klar" } :=
  mock_markers_valid _ (by decide)

/-- Claim C11: on a world in which `MOCK_MARKERS` refers to an existing array, computing
`htmlContent` for a message a second time, on the world that the first computation leaves and
with the store read again, gives the same output; the first computation leaves the store state,
the transcript with its message texts, and the order and content of the marker list as they were
(it only creates two new arrays). -/
theorem htmlContent_idempotent_and_pure (toLowerCase : JSString → JSString) (w : World)
    (msg : Message) (hw : w.markersRef < w.arrays.length) :
    (htmlContentRun toLowerCase
        (htmlContentRun toLowerCase w.store.activeLayers w.store.selectedMarkerId w
          msg).1.store.activeLayers
        (htmlContentRun toLowerCase w.store.activeLayers w.store.selectedMarkerId w
          msg).1.store.selectedMarkerId
        (htmlContentRun toLowerCase w.store.activeLayers w.store.selectedMarkerId w msg).1
        msg).2
      = (htmlContentRun toLowerCase w.store.activeLayers w.store.selectedMarkerId w msg).2
    ∧ (htmlContentRun toLowerCase w.store.activeLayers w.store.selectedMarkerId w msg).1.store
        = w.store
    ∧ (htmlContentRun toLowerCase w.store.activeLayers w.store.selectedMarkerId w
        msg).1.transcript = w.transcript
    ∧ (htmlContentRun toLowerCase w.store.activeLayers w.store.selectedMarkerId w
        msg).1.markersRef = w.markersRef
    ∧ (htmlContentRun toLowerCase w.store.activeLayers w.store.selectedMarkerId w msg).1.read
        w.markersRef = w.read w.markersRef := by
  obtain ⟨h1, h2, h3, h4, _, h6⟩ :=
    htmlContentRun_spec toLowerCase w.store.activeLayers w.store.selectedMarkerId w msg
  refine ⟨?_, h2, h3, h4, h6 _ hw⟩
  rw [htmlContentRun_spec toLowerCase _ _ _ msg |>.1, h2, h4, h6 _ hw, h1]

/-- Claim C11, witness: the world of the program at start, with `MOCK_MARKERS` as its only
array, and a message `m1` with the text `ab cd`. -/
theorem htmlContent_idempotent_and_pure_witness :
    (htmlContentRun toLowerCaseASCII initialState.activeLayers initialState.selectedMarkerId
        (htmlContentRun toLowerCaseASCII initialState.activeLayers
          initialState.selectedMarkerId
          { store := initialState, transcript := MOCK_TRANSCRIPT, arrays := [MOCK_MARKERS],
            markersRef := 0 }
          { id := utf16 "m1", speaker := utf16 "Client", text := utf16 "ab cd" }).1
        { id := utf16 "m1", speaker := utf16 "Client", text := utf16 "ab cd" }).2
      = (htmlContentRun toLowerCaseASCII initialState.activeLayers
          initialState.selectedMarkerId
          { store := initialState, transcript := MOCK_TRANSCRIPT, arrays := [MOCK_MARKERS],
            markersRef := 0 }
          { id := utf16 "m1", speaker := utf16 "Client", text := utf16 "ab cd" }).2 :=
  (htmlContent_idempotent_and_pure toLowerCaseASCII
    { store := initialState, transcript := MOCK_TRANSCRIPT, arrays := [MOCK_MARKERS],
      markersRef := 0 }
    { id := utf16 "m1", speaker := utf16 "Client", text := utf16 "ab cd" } (by decide)).1

set_option maxRecDepth 100000 in
/-- Claim C12, evaluation at the failing input: on message `m1` the snippet of `ann_001` is
`nden, besonde` and that of `ann_002` is ` in letzter Ze`, neither of them the label of its
marker; the labels `Grenzen klar` and `missverstanden` occur in the text at the offsets 86 and
35. -/
theorem mock_labels_are_not_the_snippets :
    MOCK_TRANSCRIPT.map (fun msg =>
        (MOCK_MARKERS.filter (fun m => decide (m.msgId = msg.id))).map
          (fun m => (m.id, snippet msg.text m, m.label)))
      = [[(utf16 "ann_001", utf16 "nden, besonde", utf16 "Grenzen klar"),
          (utf16 "ann_002", utf16 " in letzter Ze", utf16 "missverstanden")], []]
    ∧ MOCK_TRANSCRIPT.map (fun msg =>
        (MOCK_MARKERS.filter (fun m => decide (m.msgId = msg.id))).map
          (fun m => stringIndexOf m.label msg.text))
      = [[some 86, some 35], []] := by
  decide

/-- Claim C13: for every message and store state, two marker lists with the same sub-list of
markers of that message with an active layer give the same `htmlContent`. -/
theorem layer_filter_noninterference (toLowerCase : JSString → JSString) (s : StoreState)
    (msg : Message) (markers₁ markers₂ : List Marker)
    (h : msgMarkers (getTruthy s.activeLayers) markers₁ msg
          = msgMarkers (getTruthy s.activeLayers) markers₂ msg) :
    htmlContent toLowerCase (getTruthy s.activeLayers) s.selectedMarkerId markers₁ msg
      = htmlContent toLowerCase (getTruthy s.activeLayers) s.selectedMarkerId markers₂ msg := by
  unfold htmlContent
  rw [h]

set_option maxRecDepth 100000 in
/-- Claim C13, witness: with the layer `SEM` switched off, `MOCK_MARKERS` and the list that adds
a `SEM` marker of `m1` in front and a marker of `m2` behind give the same content for `m1`. -/
theorem layer_filter_noninterference_witness :
    htmlContent toLowerCaseASCII (getTruthy (toggleLayer (utf16 "SEM") initialState).activeLayers)
        (toggleLayer (utf16 "SEM") initialState).selectedMarkerId MOCK_MARKERS
        { id := utf16 "m1", speaker := utf16 "Client", text := utf16 "ab cd" }
      = htmlContent toLowerCaseASCII
          (getTruthy (toggleLayer (utf16 "SEM") initialState).activeLayers)
          (toggleLayer (utf16 "SEM") initialState).selectedMarkerId
          ({ id := utf16 "s1", msgId := utf16 "m1", type := utf16 "SEM", start := 0, end_ := 2,
             label := utf16 "ab" } :: MOCK_MARKERS
            ++ [{ id := utf16 "a3", msgId := utf16 "m2", type := utf16 "ATO", start := 3,
                  end_ := 5, label := utf16 "cd" }])
          { id := utf16 "m1", speaker := utf16 "Client", text := utf16 "ab cd" } :=
  layer_filter_noninterference toLowerCaseASCII (toggleLayer (utf16 "SEM") initialState)
    { id := utf16 "m1", speaker := utf16 "Client", text := utf16 "ab cd" } _ _ (by decide)

/-- Claim C14: in every state of the store and for every key `k` among `ATO`, `SEM`, `CLU`,
`MEMA`, `toggleLayer(k)` negates `activeLayers[k]`, leaves every other entry of `activeLayers`,
`selectedMarkerId` and `isStructureModalOpen` as they are, and applied twice gives the original
state back. -/
theorem toggleLayer_frame (s : StoreState) (hs : Reachable s) (k : JSString)
    (hk : k ∈ layerKeys) :
    (toggleLayer k s).activeLayers k = (s.activeLayers k).map (fun b => !b)
    ∧ getTruthy (toggleLayer k s).activeLayers k = !getTruthy s.activeLayers k
    ∧ (∀ j, j ≠ k → (toggleLayer k s).activeLayers j = s.activeLayers j)
    ∧ (toggleLayer k s).selectedMarkerId = s.selectedMarkerId
    ∧ (toggleLayer k s).isStructureModalOpen = s.isStructureModalOpen
    ∧ toggleLayer k (toggleLayer k s) = s := by
  obtain ⟨b, hb⟩ := hs.has_layer_keys k hk
  refine ⟨?_, ?_, ?_, rfl, rfl, ?_⟩
  · simp [toggleLayer, getTruthy, hb]
  · simp [toggleLayer, getTruthy, hb]
  · intro j hj
    simp [toggleLayer, hj]
  · cases s with
    | mk al sel op =>
      simp only [toggleLayer, StoreState.mk.injEq, and_true]
      funext j
      by_cases hj : j = k
      · subst hj
        simp only at hb
        simp [getTruthy, hb]
      · simp [hj]

/-- Claim C14, witness: the initial state and the key `ATO`. -/
theorem toggleLayer_frame_witness :
    (toggleLayer (utf16 "ATO") initialState).activeLayers (utf16 "ATO")
        = (initialState.activeLayers (utf16 "ATO")).map (fun b => !b)
    ∧ getTruthy (toggleLayer (utf16 "ATO") initialState).activeLayers (utf16 "ATO")
        = !getTruthy initialState.activeLayers (utf16 "ATO")
    ∧ (∀ j, j ≠ utf16 "ATO" →
        (toggleLayer (utf16 "ATO") initialState).activeLayers j = initialState.activeLayers j)
    ∧ (toggleLayer (utf16 "ATO") initialState).selectedMarkerId
        = initialState.selectedMarkerId
    ∧ (toggleLayer (utf16 "ATO") initialState).isStructureModalOpen
        = initialState.isStructureModalOpen
    ∧ toggleLayer (utf16 "ATO") (toggleLayer (utf16 "ATO") initialState) = initialState :=
  toggleLayer_frame initialState Reachable.initial (utf16 "ATO") (by decide)




end LeanDeep
